import Mathlib

/-!
# Tic-Tac-Toe match handler (nakama-server/main.go)

A shallow embedding of the match handler: the session state `TTTState`, the
callbacks `MatchInit`, `MatchJoinAttempt`, `MatchJoin`, `MatchLeave`,
`MatchLoop`, the bot (`botMove`, `randomMove`, `minimax`) and the detector
`checkWin`, followed by the properties proved about them.

Conventions of the embedding.
* Go `int` is `Int`; no arithmetic of the program leaves the range of a
  machine word (scores stay within `-1000 .. 1000`, depths within `0 .. 9`).
* `[3][3]int` is the record `Grid` of nine cells; it is a value type in Go, so
  `botMove` and `minimax` work on copies and the model passes grids by value.
* Row and column indices of the loops are natural numbers; both nested loops
  `for i := 0; i < 3; i++ { for j := 0; j < 3; j++ {...} }` visit `cells` in
  row-major order.
* The source of `checkWin` does not type-check: its loop body declares
  `a, b, c := l[0], l[1], l[2]`, which shadows the board parameter `b`, so
  `b[a[0]][a[1]]` indexes an `int`. `lineScan` and `checkWin` below are the
  detector with that slip repaired (the three cells of a line are read from the
  board). Every result that depends on what the detector returns is a result
  about the repaired program; the results on the callbacks that hold whatever
  the detector returns are not affected.
* `rand.Intn(len(choices))` is an arbitrary number below `len(choices)`; the
  model takes the drawn number as a parameter `pick` and reduces it modulo the
  length. `time.Sleep`, logging and broadcasting do not change the state.
-/

namespace TicTacToe

/-! ## Data model -/

/-- The board `[3][3]int`: `cRC` is `Board[R][C]`; 0 = empty, 1 = P1, 2 = P2. -/
structure Grid where
  c00 : Int
  c01 : Int
  c02 : Int
  c10 : Int
  c11 : Int
  c12 : Int
  c20 : Int
  c21 : Int
  c22 : Int
deriving DecidableEq

/-- The read `board[i][j]`. Every index the program uses is within `0..2`. -/
def Grid.get (b : Grid) (i j : Nat) : Int :=
  match i, j with
  | 0, 0 => b.c00
  | 0, 1 => b.c01
  | 0, 2 => b.c02
  | 1, 0 => b.c10
  | 1, 1 => b.c11
  | 1, 2 => b.c12
  | 2, 0 => b.c20
  | 2, 1 => b.c21
  | 2, 2 => b.c22
  | _, _ => 0

/-- The write `board[i][j] = v`. -/
def Grid.set (b : Grid) (i j : Nat) (v : Int) : Grid :=
  match i, j with
  | 0, 0 => { b with c00 := v }
  | 0, 1 => { b with c01 := v }
  | 0, 2 => { b with c02 := v }
  | 1, 0 => { b with c10 := v }
  | 1, 1 => { b with c11 := v }
  | 1, 2 => { b with c12 := v }
  | 2, 0 => { b with c20 := v }
  | 2, 1 => { b with c21 := v }
  | 2, 2 => { b with c22 := v }
  | _, _ => b

/-- The zero value of `[3][3]int`. -/
def emptyGrid : Grid := ⟨0, 0, 0, 0, 0, 0, 0, 0, 0⟩

/-- The index pairs visited by `for i { for j { ... } }`, in visiting order. -/
def cells : List (Nat × Nat) :=
  [(0, 0), (0, 1), (0, 2), (1, 0), (1, 1), (1, 2), (2, 0), (2, 1), (2, 2)]

/-- A line of three cells, an entry of the table `lines` of `checkWin`. -/
abbrev Line := (Nat × Nat) × (Nat × Nat) × (Nat × Nat)

/-- The table `lines` of `checkWin`, in source order. -/
def lines : List Line :=
  [((0, 0), (0, 1), (0, 2)),
   ((1, 0), (1, 1), (1, 2)),
   ((2, 0), (2, 1), (2, 2)),
   ((0, 0), (1, 0), (2, 0)),
   ((0, 1), (1, 1), (2, 1)),
   ((0, 2), (1, 2), (2, 2)),
   ((0, 0), (1, 1), (2, 2)),
   ((0, 2), (1, 1), (2, 0))]

/-- The session state `TTTState`. -/
structure TTTState where
  Board : Grid
  Turn : Int
  P1 : String
  P2 : String
  Winner : Int
  Mode : String
deriving DecidableEq

/-- The decoded payload of a move message: `struct { Row int; Col int }`. -/
structure Move where
  Row : Int
  Col : Int
deriving DecidableEq

/-- A `runtime.MatchData` as far as `MatchLoop` reads it: the op code, the
sender, and the result of `json.Unmarshal` on the data (`none` on error). -/
structure MatchData where
  OpCode : Int
  UserId : String
  Data : Option Move

/-- A value of the `params` map of `MatchInit`: a string or anything else. -/
inductive ParamValue where
  | str (s : String)
  | other

/-! ## The detector -/

/-- The first loop of `checkWin`, repaired: the source reads the cells of a
line through the shadowed name `b` and does not type-check; here the three
cells are read from the board. The first line of the table whose three cells
hold the same non-zero value returns that value. -/
def lineScan (b : Grid) : List Line → Option Int
  | [] => none
  | l :: rest =>
    let v := b.get l.1.1 l.1.2
    if v ≠ 0 ∧ v = b.get l.2.1.1 l.2.1.2 ∧ v = b.get l.2.2.1 l.2.2.2 then some v
    else lineScan b rest

/-- The second loop of `checkWin`: is some visited cell 0. -/
def emptyScan (b : Grid) : List (Nat × Nat) → Bool
  | [] => false
  | ij :: rest => if b.get ij.1 ij.2 = 0 then true else emptyScan b rest

/-- The function `checkWin` with the repaired first loop: the marker of the
first completed line, else 0 while a cell is empty, else 3. -/
def checkWin (b : Grid) : Int :=
  match lineScan b lines with
  | some v => v
  | none => if emptyScan b cells then 0 else 3

/-! ## The bot -/

/-- The function `minimax`, with the recursion bounded by `fuel`. Every
recursive call fills an empty cell, so `fuel` above the number of empty cells
is never used up (`minimaxFuel_stable`). -/
def minimaxFuel : Nat → Grid → Int → Bool → Int
  | 0, _, _, _ => 0
  | fuel + 1, board, depth, isMaximizing =>
    let result := checkWin board
    if result ≠ 0 ∧ result = 2 then 10 - depth
    else if result ≠ 0 ∧ result = 1 then depth - 10
    else if result ≠ 0 ∧ result = 3 then 0
    else if isMaximizing then
      cells.foldl (fun bestScore ij =>
        if board.get ij.1 ij.2 = 0 then
          let score := minimaxFuel fuel (board.set ij.1 ij.2 2) (depth + 1) false
          if score > bestScore then score else bestScore
        else bestScore) (-1000)
    else
      cells.foldl (fun bestScore ij =>
        if board.get ij.1 ij.2 = 0 then
          let score := minimaxFuel fuel (board.set ij.1 ij.2 1) (depth + 1) true
          if score < bestScore then score else bestScore
        else bestScore) 1000

/-- The function `minimax`: a board has nine cells, so fuel 10 always
suffices. -/
def minimax (board : Grid) (depth : Int) (isMaximizing : Bool) : Int :=
  minimaxFuel 10 board depth isMaximizing

/-- The function `randomMove`; `pick` is the number drawn by `rand.Intn`. -/
def randomMove (pick : Nat) (board : Grid) : Nat × Nat :=
  let choices := cells.filter (fun ij => board.get ij.1 ij.2 = 0)
  if choices.length = 0 then (0, 0)
  else choices.getD (pick % choices.length) (0, 0)

/-- The scan of `botMove`: `bestScore` and `bestMove` after the cells of the
list; `none` is the initial `bestMove = {-1, -1}`. -/
def botScan (board : Grid) (l : List (Nat × Nat)) (init : Int × Option (Nat × Nat)) :
    Int × Option (Nat × Nat) :=
  l.foldl (fun best ij =>
    if board.get ij.1 ij.2 = 0 then
      let score := minimax (board.set ij.1 ij.2 2) 0 false
      if score > best.1 then (score, some ij) else best
    else best) init

/-- The function `botMove`. -/
def botMove (pick : Nat) (board : Grid) : Nat × Nat :=
  match (botScan board cells (-1000, none)).2 with
  | none => randomMove pick board
  | some ij => ij

/-! ## The match callbacks -/

/-- The callback `MatchInit`: the state it returns. -/
def MatchInit (params : String → Option ParamValue) : TTTState :=
  let mode :=
    match params "mode" with
    | some (ParamValue.str modeStr) => modeStr
    | _ => "pvp"
  { Board := emptyGrid, Turn := 1, P1 := "", P2 := "", Winner := 0, Mode := mode }

/-- The count `humanCount` of `MatchJoinAttempt`. -/
def humanCount (s : TTTState) : Nat :=
  (if s.P1 ≠ "" ∧ s.P1 ≠ "BOT" then 1 else 0) + (if s.P2 ≠ "" ∧ s.P2 ≠ "BOT" then 1 else 0)

/-- The callback `MatchJoinAttempt`: the state, the decision and the reason. -/
def MatchJoinAttempt (s : TTTState) (_presence : String) : TTTState × Bool × String :=
  if s.Mode = "pvc" ∧ humanCount s ≥ 1 then (s, false, "PvC mode: only 1 human player allowed")
  else if humanCount s ≥ 2 then (s, false, "Match is full")
  else (s, true, "")

/-- The body of the loop of `MatchJoin` for one presence. -/
def joinOne (s : TTTState) (p : String) : TTTState :=
  if s.P1 = "" then { s with P1 := p }
  else if s.P2 = "" then
    if s.Mode = "pvp" then { s with P2 := p } else s
  else s

/-- The callback `MatchJoin`; a presence is read through `GetUserId` only. -/
def MatchJoin (s : TTTState) (presences : List String) : TTTState :=
  let s1 := presences.foldl joinOne s
  if s1.Mode = "pvc" ∧ s1.P2 = "" then { s1 with P2 := "BOT" } else s1

/-- The callback `MatchLeave`. -/
def MatchLeave (s : TTTState) (_presences : List String) : TTTState :=
  if s.Winner = 0 then { s with Winner := 3 } else s

/-- The seat `pid` that `MatchLoop` resolves a sender to. -/
def resolvePid (s : TTTState) (userId : String) : Int :=
  if userId = s.P1 then 1
  else if s.Mode = "pvp" ∧ userId = s.P2 then 2
  else 0

/-- The condition under which `MatchLoop` applies the move of a message. -/
def moveAccepted (s : TTTState) (userId : String) (mv : Move) : Prop :=
  resolvePid s userId = s.Turn ∧ s.Board.get mv.Row.toNat mv.Col.toNat = 0 ∧ s.Winner = 0

instance (s : TTTState) (userId : String) (mv : Move) : Decidable (moveAccepted s userId mv) := by
  unfold moveAccepted
  infer_instance

/-- The block "Validate and process move" of `MatchLoop`, for in-range
coordinates. -/
def humanMove (s : TTTState) (userId : String) (mv : Move) : TTTState :=
  if moveAccepted s userId mv then
    let pid := resolvePid s userId
    let board := s.Board.set mv.Row.toNat mv.Col.toNat pid
    let winner := checkWin board
    if winner = 0 then
      { s with Board := board, Winner := winner, Turn := if s.Turn = 1 then 2 else 1 }
    else
      { s with Board := board, Winner := winner }
  else s

/-- The condition under which `MatchLoop` lets the bot play. -/
def botDue (s : TTTState) : Prop :=
  s.Mode = "pvc" ∧ s.Turn = 2 ∧ s.Winner = 0

instance (s : TTTState) : Decidable (botDue s) := by
  unfold botDue
  infer_instance

/-- The block "If PvC mode and now it's bot's turn" of `MatchLoop`. -/
def botReply (pick : Nat) (s : TTTState) : TTTState :=
  if botDue s then
    let rc := botMove pick s.Board
    let board := s.Board.set rc.1 rc.2 2
    let winner := checkWin board
    if winner = 0 then
      { s with Board := board, Winner := winner, Turn := 1 }
    else
      { s with Board := board, Winner := winner }
  else s

/-- The body of the loop of `MatchLoop` for one message. -/
def handleMessage (pick : Nat) (s : TTTState) (msg : MatchData) : TTTState :=
  if msg.OpCode ≠ 1 then s
  else
    match msg.Data with
    | none => s
    | some mv =>
      if mv.Row < 0 ∨ mv.Row > 2 ∨ mv.Col < 0 ∨ mv.Col > 2 then s
      else botReply pick (humanMove s msg.UserId mv)

/-- The callback `MatchLoop`; `picks k` is the number the random source would
draw while the `k`-th message of the call is processed. -/
def MatchLoop (picks : Nat → Nat) (s : TTTState) : List MatchData → TTTState
  | [] => s
  | msg :: rest => MatchLoop (fun k => picks (k + 1)) (handleMessage (picks 0) s msg) rest

/-- The number of board writes (`Board[..][..] = ..`, each logged as a played
move) that the loop body performs for one message: the human move and the bot
reply. -/
def movesOfMessage (s : TTTState) (msg : MatchData) : Nat :=
  if msg.OpCode ≠ 1 then 0
  else
    match msg.Data with
    | none => 0
    | some mv =>
      if mv.Row < 0 ∨ mv.Row > 2 ∨ mv.Col < 0 ∨ mv.Col > 2 then 0
      else (if moveAccepted s msg.UserId mv then 1 else 0) +
        (if botDue (humanMove s msg.UserId mv) then 1 else 0)

/-- The number of board writes of one `MatchLoop` call. -/
def movesOfLoop (picks : Nat → Nat) (s : TTTState) : List MatchData → Nat
  | [] => 0
  | msg :: rest =>
    movesOfMessage s msg +
      movesOfLoop (fun k => picks (k + 1)) (handleMessage (picks 0) s msg) rest

/-- A callback invocation by the host on a running match. -/
inductive Call where
  | join (presences : List String)
  | leave (presences : List String)
  | loop (picks : Nat → Nat) (messages : List MatchData)

/-- The state after one callback invocation. -/
def Call.apply (s : TTTState) : Call → TTTState
  | Call.join ps => MatchJoin s ps
  | Call.leave ps => MatchLeave s ps
  | Call.loop picks msgs => MatchLoop picks s msgs

/-- The number of board writes of one callback invocation. -/
def Call.moves (s : TTTState) : Call → Nat
  | Call.join _ => 0
  | Call.leave _ => 0
  | Call.loop picks msgs => movesOfLoop picks s msgs

/-- The state after a sequence of callback invocations. -/
def run (s : TTTState) : List Call → TTTState
  | [] => s
  | c :: rest => run (c.apply s) rest

/-- The number of board writes during a sequence of callback invocations. -/
def runMoves (s : TTTState) : List Call → Nat
  | [] => 0
  | c :: rest => c.moves s + runMoves (c.apply s) rest

/-! ## Vocabulary of the properties -/

/-- Every cell of the board is 0, 1 or 2. -/
def Grid.valid (b : Grid) : Prop :=
  ∀ ij ∈ cells, b.get ij.1 ij.2 = 0 ∨ b.get ij.1 ij.2 = 1 ∨ b.get ij.1 ij.2 = 2

instance (b : Grid) : Decidable b.valid := by
  unfold Grid.valid
  infer_instance

/-- The three cells of the line hold the same non-zero marker. -/
def lineFull (b : Grid) (l : Line) : Prop :=
  b.get l.1.1 l.1.2 ≠ 0 ∧ b.get l.2.1.1 l.2.1.2 = b.get l.1.1 l.1.2 ∧
    b.get l.2.2.1 l.2.2.2 = b.get l.1.1 l.1.2

instance (b : Grid) (l : Line) : Decidable (lineFull b l) := by
  unfold lineFull
  infer_instance

/-- The number of non-empty cells of the board. -/
def Grid.filled (b : Grid) : Nat :=
  (cells.filter (fun ij => b.get ij.1 ij.2 ≠ 0)).length

/-- The number of empty cells of the board. -/
def Grid.empties (b : Grid) : Nat :=
  (cells.filter (fun ij => b.get ij.1 ij.2 = 0)).length

/-- Row or column outside `[0,2]`. -/
def outOfRange (mv : Move) : Prop :=
  mv.Row < 0 ∨ mv.Row > 2 ∨ mv.Col < 0 ∨ mv.Col > 2

instance (mv : Move) : Decidable (outOfRange mv) := by
  unfold outOfRange
  infer_instance

/-- The occupant of the seat whose turn it is. -/
def seatOccupant (s : TTTState) : String :=
  if s.Turn = 1 then s.P1 else s.P2

/-- A move message that is illegal: out of range, or from a sender who is not
the occupant of the seat whose turn it is (in pvc: is not P1), or at a
non-empty cell, or after the outcome is decided. -/
def illegalMove (s : TTTState) (userId : String) (mv : Move) : Prop :=
  outOfRange mv ∨ (if s.Mode = "pvc" then userId ≠ s.P1 else userId ≠ seatOccupant s) ∨
    s.Board.get mv.Row.toNat mv.Col.toNat ≠ 0 ∨ s.Winner ≠ 0

instance (s : TTTState) (userId : String) (mv : Move) : Decidable (illegalMove s userId mv) := by
  unfold illegalMove
  infer_instance

/-- A move message that is legal on an undecided state: in range, sent by the
occupant of the seat whose turn it is, at an empty cell. -/
def legalMove (s : TTTState) (userId : String) (mv : Move) : Prop :=
  ¬ outOfRange mv ∧ userId = seatOccupant s ∧ s.Board.get mv.Row.toNat mv.Col.toNat = 0

instance (s : TTTState) (userId : String) (mv : Move) : Decidable (legalMove s userId mv) := by
  unfold legalMove
  infer_instance

/-- The sender is the one `MatchLoop` takes for the seat whose turn it is: the
occupant of P1 on seat 1; on seat 2 the occupant of P2 in pvp mode, unless the
same participant also occupies P1. -/
def senderOnTurn (s : TTTState) (userId : String) : Prop :=
  (s.Turn = 1 ∧ userId = s.P1) ∨
    (s.Turn = 2 ∧ s.Mode = "pvp" ∧ userId = s.P2 ∧ userId ≠ s.P1)

instance (s : TTTState) (userId : String) : Decidable (senderOnTurn s userId) := by
  unfold senderOnTurn
  infer_instance

/-- The other seat. -/
def otherSeat (t : Int) : Int :=
  if t = 1 then 2 else 1

/-- Every non-empty cell of `b` holds the same value in `b2`. -/
def Grid.keptBy (b b2 : Grid) : Prop :=
  ∀ ij ∈ cells, b.get ij.1 ij.2 ≠ 0 → b2.get ij.1 ij.2 = b.get ij.1 ij.2

/-- The state is consistent: cells in {0,1,2}, Turn in {1,2}, and an undecided
state has a board on which `checkWin` is 0. -/
def consistent (s : TTTState) : Prop :=
  s.Board.valid ∧ (s.Turn = 1 ∨ s.Turn = 2) ∧ (s.Winner = 0 → checkWin s.Board = 0)

/-! ## A quick position check for the search

The positions of the game as nine marks, with a line check by case analysis
and a search that decides whether the bot can avoid a loss. The search is
related to `minimax` by `botHolds_sound`. -/

/-- The content of a cell: empty, the marker of P1, the marker of the bot. -/
inductive Mark where
  | blank
  | human
  | bot
deriving DecidableEq

/-- The cell value of a mark. -/
def Mark.toInt : Mark → Int
  | Mark.blank => 0
  | Mark.human => 1
  | Mark.bot => 2

/-- The board holding the nine marks, in row-major order. -/
def markGrid (a b c d e f g h i : Mark) : Grid :=
  ⟨a.toInt, b.toInt, c.toInt, d.toInt, e.toInt, f.toInt, g.toInt, h.toInt, i.toInt⟩

/-- The mark is the empty one. -/
def Mark.isBlank : Mark → Bool
  | Mark.blank => true
  | _ => false

/-- Three equal non-empty marks. -/
def lineHit (a b c : Mark) : Bool :=
  match a, b, c with
  | Mark.human, Mark.human, Mark.human => true
  | Mark.bot, Mark.bot, Mark.bot => true
  | _, _, _ => false

/-- The four results of `checkWin`. -/
inductive Outcome where
  | undecided
  | humanWins
  | botWins
  | draw
deriving DecidableEq

/-- The `checkWin` value of an outcome. -/
def Outcome.toInt : Outcome → Int
  | Outcome.undecided => 0
  | Outcome.humanWins => 1
  | Outcome.botWins => 2
  | Outcome.draw => 3

/-- The outcome when a line of this mark is complete. -/
def Mark.wins : Mark → Outcome
  | Mark.blank => Outcome.undecided
  | Mark.human => Outcome.humanWins
  | Mark.bot => Outcome.botWins

/-- The detector on marks: the eight lines in the order of `lines`, then the
search for an empty cell. -/
def quickCheck (a b c d e f g h i : Mark) : Outcome :=
  if lineHit a b c then a.wins
  else if lineHit d e f then d.wins
  else if lineHit g h i then g.wins
  else if lineHit a d g then a.wins
  else if lineHit b e h then b.wins
  else if lineHit c f i then c.wins
  else if lineHit a e i then a.wins
  else if lineHit c e g then c.wins
  else if a.isBlank || b.isBlank || c.isBlank || d.isBlank || e.isBlank || f.isBlank ||
      g.isBlank || h.isBlank || i.isBlank then Outcome.undecided
  else Outcome.draw

/-- The bot can avoid a loss from the position within `fuel` plies: with the
bot to move some reply keeps it so, with P1 to move every move of P1 does. -/
def botHolds : Nat → Bool → Mark → Mark → Mark → Mark → Mark → Mark → Mark → Mark → Mark → Bool
  | 0, _, _, _, _, _, _, _, _, _, _ => false
  | fuel + 1, botToMove, a, b, c, d, e, f, g, h, i =>
    match quickCheck a b c d e f g h i with
    | Outcome.humanWins => false
    | Outcome.botWins => true
    | Outcome.draw => true
    | Outcome.undecided =>
      match botToMove with
      | true =>
        (a.isBlank && botHolds fuel false Mark.bot b c d e f g h i) ||
        (b.isBlank && botHolds fuel false a Mark.bot c d e f g h i) ||
        (c.isBlank && botHolds fuel false a b Mark.bot d e f g h i) ||
        (d.isBlank && botHolds fuel false a b c Mark.bot e f g h i) ||
        (e.isBlank && botHolds fuel false a b c d Mark.bot f g h i) ||
        (f.isBlank && botHolds fuel false a b c d e Mark.bot g h i) ||
        (g.isBlank && botHolds fuel false a b c d e f Mark.bot h i) ||
        (h.isBlank && botHolds fuel false a b c d e f g Mark.bot i) ||
        (i.isBlank && botHolds fuel false a b c d e f g h Mark.bot)
      | false =>
        (!a.isBlank || botHolds fuel true Mark.human b c d e f g h i) &&
        (!b.isBlank || botHolds fuel true a Mark.human c d e f g h i) &&
        (!c.isBlank || botHolds fuel true a b Mark.human d e f g h i) &&
        (!d.isBlank || botHolds fuel true a b c Mark.human e f g h i) &&
        (!e.isBlank || botHolds fuel true a b c d Mark.human f g h i) &&
        (!f.isBlank || botHolds fuel true a b c d e Mark.human g h i) &&
        (!g.isBlank || botHolds fuel true a b c d e f Mark.human h i) &&
        (!h.isBlank || botHolds fuel true a b c d e f g Mark.human i) &&
        (!i.isBlank || botHolds fuel true a b c d e f g h Mark.human)

/-- The bot is holding the pvc session: the outcome is not a win of P1, and
while it is undecided it is the turn of P1 on a board with `checkWin` 0 from
which the score of `minimax`, P1 to move, is not negative. -/
def holding (s : TTTState) : Prop :=
  s.Mode = "pvc" ∧ s.Board.valid ∧ (s.Winner = 0 ∨ s.Winner = 2 ∨ s.Winner = 3) ∧
    (s.Winner = 0 → s.Turn = 1 ∧ checkWin s.Board = 0 ∧ 0 ≤ minimax s.Board 0 false)

/-- The id of a human participant: non-empty and not the literal "BOT". -/
def humanId (id : String) : Prop :=
  id ≠ "" ∧ id ≠ "BOT"

instance (id : String) : Decidable (humanId id) := by
  unfold humanId
  infer_instance

/-- The state is settled: a pvc session with an undecided outcome is at the
turn of P1, and the stored outcome is 3 or the `checkWin` value of the board. -/
def settled (s : TTTState) : Prop :=
  (s.Mode = "pvc" → s.Winner = 0 → s.Turn = 1) ∧ (s.Winner = 3 ∨ checkWin s.Board = s.Winner)

/-- P1 can force a win from the position within `fuel` plies: with P1 to move
some move keeps it so, with the bot to move every reply of the bot does. -/
def humanForces : Nat → Bool → Mark → Mark → Mark → Mark → Mark → Mark → Mark → Mark → Mark → Bool
  | 0, _, _, _, _, _, _, _, _, _, _ => false
  | fuel + 1, botToMove, a, b, c, d, e, f, g, h, i =>
    match quickCheck a b c d e f g h i with
    | Outcome.humanWins => true
    | Outcome.botWins => false
    | Outcome.draw => false
    | Outcome.undecided =>
      match botToMove with
      | true =>
        (!a.isBlank || humanForces fuel false Mark.bot b c d e f g h i) &&
        (!b.isBlank || humanForces fuel false a Mark.bot c d e f g h i) &&
        (!c.isBlank || humanForces fuel false a b Mark.bot d e f g h i) &&
        (!d.isBlank || humanForces fuel false a b c Mark.bot e f g h i) &&
        (!e.isBlank || humanForces fuel false a b c d Mark.bot f g h i) &&
        (!f.isBlank || humanForces fuel false a b c d e Mark.bot g h i) &&
        (!g.isBlank || humanForces fuel false a b c d e f Mark.bot h i) &&
        (!h.isBlank || humanForces fuel false a b c d e f g Mark.bot i) &&
        (!i.isBlank || humanForces fuel false a b c d e f g h Mark.bot)
      | false =>
        (a.isBlank && humanForces fuel true Mark.human b c d e f g h i) ||
        (b.isBlank && humanForces fuel true a Mark.human c d e f g h i) ||
        (c.isBlank && humanForces fuel true a b Mark.human d e f g h i) ||
        (d.isBlank && humanForces fuel true a b c Mark.human e f g h i) ||
        (e.isBlank && humanForces fuel true a b c d Mark.human f g h i) ||
        (f.isBlank && humanForces fuel true a b c d e Mark.human g h i) ||
        (g.isBlank && humanForces fuel true a b c d e f Mark.human h i) ||
        (h.isBlank && humanForces fuel true a b c d e f g Mark.human i) ||
        (i.isBlank && humanForces fuel true a b c d e f g h Mark.human)

/-- Turn is 1 or 2, and a pvc session with an undecided outcome is at the turn
of P1. -/
def turnSound (s : TTTState) : Prop :=
  (s.Turn = 1 ∨ s.Turn = 2) ∧ (s.Mode = "pvc" → s.Winner = 0 → s.Turn = 1)

/-! ## The detector: properties -/

theorem lineScan_first (b : Grid) (ls : List Line) (k : Nat) (l : Line)
    (hl : ls[k]? = some l) (hfull : lineFull b l)
    (hfirst : ∀ k2 l2, k2 < k → ls[k2]? = some l2 → ¬ lineFull b l2) :
    lineScan b ls = some (b.get l.1.1 l.1.2) := by
  induction ls generalizing k with
  | nil => simp at hl
  | cons a rest ih =>
    cases k with
    | zero =>
      simp at hl
      subst hl
      obtain ⟨h1, h2, h3⟩ := hfull
      simp [lineScan, h1, h2, h3]
    | succ k =>
      have ha : ¬ lineFull b a := hfirst 0 a (Nat.succ_pos k) (by simp)
      have hrest := ih k (by simpa using hl)
        (fun k2 l2 hk2 hl2 => hfirst (k2 + 1) l2 (Nat.succ_lt_succ hk2) (by simpa using hl2))
      have hcond : ¬ (b.get a.1.1 a.1.2 ≠ 0 ∧ b.get a.1.1 a.1.2 = b.get a.2.1.1 a.2.1.2 ∧
          b.get a.1.1 a.1.2 = b.get a.2.2.1 a.2.2.2) := by
        intro h
        exact ha ⟨h.1, h.2.1.symm, h.2.2.symm⟩
      simp only [lineScan, hcond, if_false]
      exact hrest

theorem lineScan_none (b : Grid) (ls : List Line) (hno : ∀ l ∈ ls, ¬ lineFull b l) :
    lineScan b ls = none := by
  induction ls with
  | nil => rfl
  | cons a rest ih =>
    have ha : ¬ lineFull b a := hno a (List.mem_cons_self a rest)
    have hcond : ¬ (b.get a.1.1 a.1.2 ≠ 0 ∧ b.get a.1.1 a.1.2 = b.get a.2.1.1 a.2.1.2 ∧
        b.get a.1.1 a.1.2 = b.get a.2.2.1 a.2.2.2) := by
      intro h
      exact ha ⟨h.1, h.2.1.symm, h.2.2.symm⟩
    simp only [lineScan, hcond, if_false]
    exact ih (fun l hl => hno l (List.mem_cons_of_mem a hl))

theorem emptyScan_eq_true (b : Grid) (l : List (Nat × Nat)) :
    emptyScan b l = true ↔ ∃ ij ∈ l, b.get ij.1 ij.2 = 0 := by
  induction l with
  | nil => simp [emptyScan]
  | cons a rest ih =>
    by_cases h : b.get a.1 a.2 = 0
    · simp [emptyScan, h]
    · simp [emptyScan, h, ih]

theorem line_head_mem_cells (k : Nat) (l : Line) (hl : lines[k]? = some l) : l.1 ∈ cells := by
  have hk : k < 8 := by
    by_contra h
    have : lines[k]? = none := List.getElem?_eq_none (by simp [lines]; omega)
    simp [this] at hl
  interval_cases k <;> simp [lines] at hl <;> subst hl <;> simp [cells]

/-- The repaired detector: on a board with cells in {0,1,2}, when the line at
position `k` of the scan order (rows 0,1,2; columns 0,1,2; the two diagonals) holds three equal
non-zero markers and no earlier line does, `checkWin` returns the marker of
that line, which is 1 or 2; lines of the other marker further down the order
do not matter. The source function does not type-check, so this is not a
property of the repository's `checkWin`. -/
theorem checkWin_first_completed_line (b : Grid) (hv : b.valid) (k : Nat) (l : Line)
    (hl : lines[k]? = some l) (hfull : lineFull b l)
    (hfirst : ∀ k2 l2, k2 < k → lines[k2]? = some l2 → ¬ lineFull b l2) :
    checkWin b = b.get l.1.1 l.1.2 ∧ (checkWin b = 1 ∨ checkWin b = 2) := by
  have h := lineScan_first b lines k l hl hfull hfirst
  have hc : checkWin b = b.get l.1.1 l.1.2 := by simp [checkWin, h]
  refine ⟨hc, ?_⟩
  rw [hc]
  rcases hv l.1 (line_head_mem_cells k l hl) with h0 | h1 | h2
  · exact absurd h0 hfull.1
  · exact Or.inl h1
  · exact Or.inr h2

theorem checkWin_first_completed_line_witness :
    checkWin ⟨1, 1, 1, 2, 2, 2, 0, 0, 0⟩ = 1 ∧ (checkWin ⟨1, 1, 1, 2, 2, 2, 0, 0, 0⟩ = 1 ∨ checkWin ⟨1, 1, 1, 2, 2, 2, 0, 0, 0⟩ = 2) :=
  checkWin_first_completed_line ⟨1, 1, 1, 2, 2, 2, 0, 0, 0⟩ (by decide) 0 ((0, 0), (0, 1), (0, 2))
    (by decide) (by decide) (by intro k2 l2 h; omega)

theorem checkWin_of_no_line (b : Grid)
    (hno : ∀ l ∈ lines, ¬ lineFull b l) :
    ((∀ ij ∈ cells, b.get ij.1 ij.2 ≠ 0) → checkWin b = 3) ∧
      ((∃ ij ∈ cells, b.get ij.1 ij.2 = 0) → checkWin b = 0) := by
  have h := lineScan_none b lines hno
  constructor
  · intro hall
    have he : emptyScan b cells = false := by
      rw [← Bool.not_eq_true, emptyScan_eq_true]
      rintro ⟨ij, hij, h0⟩
      exact hall ij hij h0
    simp [checkWin, h, he]
  · intro hex
    have he : emptyScan b cells = true := (emptyScan_eq_true b cells).2 hex
    simp [checkWin, h, he]


/-- The repaired detector: when none of the eight lines holds three equal
non-zero markers, `checkWin` returns 3 if every cell is non-zero and 0 if some
cell is 0. The source function does not type-check, so this is not a property
of the repository's `checkWin`. -/
theorem checkWin_no_completed_line (b : Grid)
    (hno : ∀ l ∈ lines, ¬ lineFull b l) :
    ((∀ ij ∈ cells, b.get ij.1 ij.2 ≠ 0) → checkWin b = 3) ∧
      ((∃ ij ∈ cells, b.get ij.1 ij.2 = 0) → checkWin b = 0) :=
  checkWin_of_no_line b hno

theorem checkWin_no_completed_line_witness :
    ((∀ ij ∈ cells, (⟨1, 2, 1, 1, 2, 2, 2, 1, 1⟩ : Grid).get ij.1 ij.2 ≠ 0) →
        checkWin ⟨1, 2, 1, 1, 2, 2, 2, 1, 1⟩ = 3) ∧
      ((∃ ij ∈ cells, (⟨1, 2, 1, 1, 2, 2, 2, 1, 1⟩ : Grid).get ij.1 ij.2 = 0) →
        checkWin ⟨1, 2, 1, 1, 2, 2, 2, 1, 1⟩ = 0) :=
  checkWin_no_completed_line ⟨1, 2, 1, 1, 2, 2, 2, 1, 1⟩ (by decide)

/-! ## Scans that keep a maximum or a minimum -/

theorem foldMax_ge_iff {α : Type} (E : α → Prop) [DecidablePred E] (F : α → Int)
    (l : List α) (init t : Int) :
    t ≤ l.foldl (fun best a => if E a then (if F a > best then F a else best) else best) init ↔
      t ≤ init ∨ ∃ a ∈ l, E a ∧ t ≤ F a := by
  induction l generalizing init with
  | nil => simp
  | cons a rest ih =>
    rw [List.foldl_cons, ih]
    by_cases hE : E a
    · by_cases hF : F a > init
      · simp only [hE, hF, if_true, List.mem_cons, exists_eq_or_imp, true_and]
        constructor
        · rintro (h | h)
          · exact Or.inr (Or.inl h)
          · exact Or.inr (Or.inr h)
        · rintro (h | h | h)
          · exact Or.inl (by omega)
          · exact Or.inl h
          · exact Or.inr h
      · simp only [hE, hF, if_true, if_false, List.mem_cons, exists_eq_or_imp, true_and]
        constructor
        · rintro (h | h)
          · exact Or.inl h
          · exact Or.inr (Or.inr h)
        · rintro (h | h | h)
          · exact Or.inl h
          · exact Or.inl (by omega)
          · exact Or.inr h
    · simp only [hE, if_false, List.mem_cons, exists_eq_or_imp, false_and, false_or]

theorem foldMin_ge_iff {α : Type} (E : α → Prop) [DecidablePred E] (F : α → Int)
    (l : List α) (init t : Int) :
    t ≤ l.foldl (fun best a => if E a then (if F a < best then F a else best) else best) init ↔
      t ≤ init ∧ ∀ a ∈ l, E a → t ≤ F a := by
  induction l generalizing init with
  | nil => simp
  | cons a rest ih =>
    rw [List.foldl_cons, ih]
    by_cases hE : E a
    · by_cases hF : F a < init
      · simp only [hE, hF, if_true, List.mem_cons, forall_eq_or_imp, true_implies]
        constructor
        · rintro ⟨h1, h2⟩
          exact ⟨by omega, h1, h2⟩
        · rintro ⟨_, h1, h2⟩
          exact ⟨h1, h2⟩
      · simp only [hE, hF, if_true, if_false, List.mem_cons, forall_eq_or_imp, true_implies]
        constructor
        · rintro ⟨h1, h2⟩
          exact ⟨h1, by omega, h2⟩
        · rintro ⟨h0, _, h2⟩
          exact ⟨h0, h2⟩
    · simp only [hE, if_false, List.mem_cons, forall_eq_or_imp, false_implies, true_and]

theorem foldMax_le_iff {α : Type} (E : α → Prop) [DecidablePred E] (F : α → Int)
    (l : List α) (init t : Int) :
    l.foldl (fun best a => if E a then (if F a > best then F a else best) else best) init ≤ t ↔
      init ≤ t ∧ ∀ a ∈ l, E a → F a ≤ t := by
  have h := foldMax_ge_iff E F l init (t + 1)
  constructor
  · intro hle
    have hn : ¬ (t + 1 ≤ init ∨ ∃ a ∈ l, E a ∧ t + 1 ≤ F a) := fun hc => by
      have := h.2 hc
      omega
    refine ⟨by_contra fun hc => hn (Or.inl (by omega)), fun a ha hE => by_contra fun hc => ?_⟩
    exact hn (Or.inr ⟨a, ha, hE, by omega⟩)
  · rintro ⟨h0, hall⟩
    by_contra hc
    rcases h.1 (by omega) with h1 | ⟨a, ha, hE, h2⟩
    · omega
    · have := hall a ha hE
      omega

theorem foldMin_le_iff {α : Type} (E : α → Prop) [DecidablePred E] (F : α → Int)
    (l : List α) (init t : Int) :
    l.foldl (fun best a => if E a then (if F a < best then F a else best) else best) init ≤ t ↔
      init ≤ t ∨ ∃ a ∈ l, E a ∧ F a ≤ t := by
  have h := foldMin_ge_iff E F l init (t + 1)
  constructor
  · intro hle
    by_contra hc
    push_neg at hc
    have := h.2 ⟨by omega, fun a ha hE => by have := hc.2 a ha hE; omega⟩
    omega
  · intro hex
    by_contra hc
    have h1 := h.1 (by omega)
    rcases hex with h0 | ⟨a, ha, hE, h2⟩
    · omega
    · have := h1.2 a ha hE
      omega

theorem foldl_congr_mem {α β : Type} (f g : β → α → β) (l : List α) (init : β)
    (h : ∀ a ∈ l, ∀ x, f x a = g x a) : l.foldl f init = l.foldl g init := by
  induction l generalizing init with
  | nil => rfl
  | cons a rest ih =>
    rw [List.foldl_cons, List.foldl_cons, h a (List.mem_cons_self a rest) init]
    exact ih _ (fun c hc x => h c (List.mem_cons_of_mem a hc) x)

/-! ## Reading and writing cells -/

theorem get_set_self (b : Grid) (ij : Nat × Nat) (h : ij ∈ cells) (v : Int) :
    (b.set ij.1 ij.2 v).get ij.1 ij.2 = v := by
  simp only [cells, List.mem_cons, List.mem_singleton, List.not_mem_nil, or_false] at h
  rcases h with h | h | h | h | h | h | h | h | h <;> subst h <;> rfl

theorem get_set_other (b : Grid) (ij kl : Nat × Nat) (h : ij ∈ cells) (h2 : kl ∈ cells)
    (hne : kl ≠ ij) (v : Int) : (b.set ij.1 ij.2 v).get kl.1 kl.2 = b.get kl.1 kl.2 := by
  simp only [cells, List.mem_cons, List.mem_singleton, List.not_mem_nil, or_false] at h h2
  rcases h with h | h | h | h | h | h | h | h | h <;> subst h <;>
    rcases h2 with h2 | h2 | h2 | h2 | h2 | h2 | h2 | h2 | h2 <;> subst h2 <;>
    first | rfl | exact absurd rfl hne

theorem valid_set (b : Grid) (hv : b.valid) (ij : Nat × Nat) (h : ij ∈ cells) (v : Int)
    (hval : v = 0 ∨ v = 1 ∨ v = 2) : (b.set ij.1 ij.2 v).valid := by
  intro kl hkl
  by_cases hne : kl = ij
  · subst hne
    rw [get_set_self b kl h v]
    exact hval
  · rw [get_set_other b ij kl h hkl hne v]
    exact hv kl hkl

theorem cells_nodup : cells.Nodup := by decide

theorem countP_flip {α : Type} [DecidableEq α] (p q : α → Bool) (l : List α) (hn : l.Nodup)
    (a : α) (ha : a ∈ l) (hp : p a = true) (hq : q a = false)
    (hrest : ∀ c ∈ l, c ≠ a → q c = p c) : l.countP q + 1 = l.countP p := by
  induction l with
  | nil => simp at ha
  | cons c rest ih =>
    rw [List.nodup_cons] at hn
    by_cases hca : c = a
    · subst hca
      have hsame : rest.countP q = rest.countP p := by
        apply List.countP_congr
        intro d hd
        have hne : d ≠ c := fun h => hn.1 (h ▸ hd)
        rw [hrest d (List.mem_cons_of_mem c hd) hne]
      simp [List.countP_cons, hp, hq, hsame]
    · have ha2 : a ∈ rest := by
        rcases List.mem_cons.1 ha with h | h
        · exact absurd h.symm hca
        · exact h
      have := ih hn.2 ha2 (fun d hd hne => hrest d (List.mem_cons_of_mem c hd) hne)
      have hc := hrest c (List.mem_cons_self c rest) hca
      simp only [List.countP_cons, hc]
      omega

theorem empties_eq_countP (b : Grid) :
    b.empties = cells.countP (fun ij => decide (b.get ij.1 ij.2 = 0)) := by
  simp [Grid.empties, List.countP_eq_length_filter]

theorem filled_eq_countP (b : Grid) :
    b.filled = cells.countP (fun ij => decide (b.get ij.1 ij.2 ≠ 0)) := by
  simp [Grid.filled, List.countP_eq_length_filter]

theorem empties_set (b : Grid) (ij : Nat × Nat) (h : ij ∈ cells) (h0 : b.get ij.1 ij.2 = 0)
    (v : Int) (hv : v ≠ 0) : (b.set ij.1 ij.2 v).empties + 1 = b.empties := by
  rw [empties_eq_countP, empties_eq_countP]
  apply countP_flip _ _ cells cells_nodup ij h
  · simp [h0]
  · simp [get_set_self b ij h v, hv]
  · intro c hc hne
    simp [get_set_other b ij c h hc hne v]

theorem filled_set (b : Grid) (ij : Nat × Nat) (h : ij ∈ cells) (h0 : b.get ij.1 ij.2 = 0)
    (v : Int) (hv : v ≠ 0) : (b.set ij.1 ij.2 v).filled = b.filled + 1 := by
  rw [filled_eq_countP, filled_eq_countP]
  symm
  apply countP_flip _ _ cells cells_nodup ij h
  · simp [get_set_self b ij h v, hv]
  · simp [h0]
  · intro c hc hne
    simp [get_set_other b ij c h hc hne v]

theorem empties_le (b : Grid) : b.empties ≤ 9 := by
  unfold Grid.empties
  exact (List.length_filter_le _ _).trans (by simp [cells])

theorem empties_pos_iff (b : Grid) : 0 < b.empties ↔ ∃ ij ∈ cells, b.get ij.1 ij.2 = 0 := by
  unfold Grid.empties
  rw [List.length_pos_iff_exists_mem]
  simp [List.mem_filter]

/-! ## The detector: range of the result -/

theorem lineScan_some (b : Grid) (ls : List Line) (v : Int) (h : lineScan b ls = some v) :
    ∃ l ∈ ls, lineFull b l ∧ v = b.get l.1.1 l.1.2 := by
  induction ls with
  | nil => simp [lineScan] at h
  | cons a rest ih =>
    by_cases hc : b.get a.1.1 a.1.2 ≠ 0 ∧ b.get a.1.1 a.1.2 = b.get a.2.1.1 a.2.1.2 ∧
        b.get a.1.1 a.1.2 = b.get a.2.2.1 a.2.2.2
    · unfold lineScan at h
      rw [if_pos hc] at h
      exact ⟨a, List.mem_cons_self a rest, ⟨hc.1, hc.2.1.symm, hc.2.2.symm⟩,
        (Option.some.inj h).symm⟩
    · unfold lineScan at h
      rw [if_neg hc] at h
      obtain ⟨l, hl, hf, hv⟩ := ih h
      exact ⟨l, List.mem_cons_of_mem a hl, hf, hv⟩

theorem line_cells_mem (l : Line) (hl : l ∈ lines) : l.1 ∈ cells ∧ l.2.1 ∈ cells ∧ l.2.2 ∈ cells := by
  simp only [lines, List.mem_cons, List.mem_singleton, List.not_mem_nil, or_false] at hl
  rcases hl with h | h | h | h | h | h | h | h <;> subst h <;> simp [cells]

theorem checkWin_cases (b : Grid) :
    (∃ l ∈ lines, lineFull b l ∧ checkWin b = b.get l.1.1 l.1.2) ∨
      ((∀ l ∈ lines, ¬ lineFull b l) ∧ (∃ ij ∈ cells, b.get ij.1 ij.2 = 0) ∧ checkWin b = 0) ∨
      ((∀ l ∈ lines, ¬ lineFull b l) ∧ (∀ ij ∈ cells, b.get ij.1 ij.2 ≠ 0) ∧ checkWin b = 3) := by
  by_cases hex : ∃ l ∈ lines, lineFull b l
  · left
    cases hs : lineScan b lines with
    | none =>
      exfalso
      obtain ⟨l, hl, hf⟩ := hex
      have hidx := List.getElem?_of_mem hl
      obtain ⟨k, hk⟩ := hidx
      -- the least index of a full line
      have hP : ∃ k, ∃ l, lines[k]? = some l ∧ lineFull b l := ⟨k, l, hk, hf⟩
      classical
      obtain ⟨l0, hl0, hf0⟩ := Nat.find_spec hP
      have := lineScan_first b lines (Nat.find hP) l0 hl0 hf0
        (fun k2 l2 hk2 hl2 hf2 => Nat.find_min hP hk2 ⟨l2, hl2, hf2⟩)
      rw [hs] at this
      exact Option.noConfusion this
    | some v =>
      obtain ⟨l, hl, hf, hv⟩ := lineScan_some b lines v hs
      exact ⟨l, hl, hf, by simp [checkWin, hs, hv]⟩
  · right
    push_neg at hex
    have h := checkWin_of_no_line b hex
    by_cases he : ∃ ij ∈ cells, b.get ij.1 ij.2 = 0
    · exact Or.inl ⟨hex, he, h.2 he⟩
    · push_neg at he
      exact Or.inr ⟨hex, he, h.1 he⟩

theorem checkWin_range (b : Grid) (hv : b.valid) :
    checkWin b = 0 ∨ checkWin b = 1 ∨ checkWin b = 2 ∨ checkWin b = 3 := by
  rcases checkWin_cases b with ⟨l, hl, hf, hc⟩ | ⟨_, _, hc⟩ | ⟨_, _, hc⟩
  · rcases hv l.1 (line_cells_mem l hl).1 with h | h | h
    · exact absurd h hf.1
    · exact Or.inr (Or.inl (hc.trans h))
    · exact Or.inr (Or.inr (Or.inl (hc.trans h)))
  · exact Or.inl hc
  · exact Or.inr (Or.inr (Or.inr hc))

theorem checkWin_zero_empty (b : Grid) (hv : b.valid) (h : checkWin b = 0) :
    ∃ ij ∈ cells, b.get ij.1 ij.2 = 0 := by
  rcases checkWin_cases b with ⟨l, hl, hf, hc⟩ | ⟨_, he, _⟩ | ⟨_, _, hc⟩
  · rcases hv l.1 (line_cells_mem l hl).1 with h1 | h1 | h1
    · exact absurd h1 hf.1
    · rw [hc, h1] at h; exact absurd h (by decide)
    · rw [hc, h1] at h; exact absurd h (by decide)
  · exact he
  · rw [hc] at h; exact absurd h (by decide)

/-! ## The search: fuel, bounds and signs -/

theorem minimaxFuel_succ (n : Nat) (board : Grid) (depth : Int) (isMaximizing : Bool) :
    minimaxFuel (n + 1) board depth isMaximizing =
      if checkWin board ≠ 0 ∧ checkWin board = 2 then 10 - depth
      else if checkWin board ≠ 0 ∧ checkWin board = 1 then depth - 10
      else if checkWin board ≠ 0 ∧ checkWin board = 3 then 0
      else if isMaximizing then
        cells.foldl (fun bestScore ij =>
          if board.get ij.1 ij.2 = 0 then
            (if minimaxFuel n (board.set ij.1 ij.2 2) (depth + 1) false > bestScore then
              minimaxFuel n (board.set ij.1 ij.2 2) (depth + 1) false else bestScore)
          else bestScore) (-1000)
      else
        cells.foldl (fun bestScore ij =>
          if board.get ij.1 ij.2 = 0 then
            (if minimaxFuel n (board.set ij.1 ij.2 1) (depth + 1) true < bestScore then
              minimaxFuel n (board.set ij.1 ij.2 1) (depth + 1) true else bestScore)
          else bestScore) 1000 := rfl

/-- Fuel above the number of empty cells is never used up: the result of
`minimaxFuel` does not depend on it, so `minimax` is the source function. -/
theorem minimaxFuel_stable (n m : Nat) (b : Grid) (d : Int) (x : Bool)
    (hn : b.empties < n) (hm : b.empties < m) : minimaxFuel n b d x = minimaxFuel m b d x := by
  induction n generalizing m b d x with
  | zero => omega
  | succ n ih =>
    cases m with
    | zero => omega
    | succ m =>
      have hchild : ∀ ij ∈ cells, b.get ij.1 ij.2 = 0 → ∀ (v : Int), v ≠ 0 → ∀ (y : Bool),
          minimaxFuel n (b.set ij.1 ij.2 v) (d + 1) y =
            minimaxFuel m (b.set ij.1 ij.2 v) (d + 1) y := by
        intro ij hij h0 v hv y
        have := empties_set b ij hij h0 v hv
        exact ih m _ _ _ (by omega) (by omega)
      have hmax : cells.foldl (fun bestScore ij =>
            if b.get ij.1 ij.2 = 0 then
              (if minimaxFuel n (b.set ij.1 ij.2 2) (d + 1) false > bestScore then
                minimaxFuel n (b.set ij.1 ij.2 2) (d + 1) false else bestScore)
            else bestScore) (-1000) =
          cells.foldl (fun bestScore ij =>
            if b.get ij.1 ij.2 = 0 then
              (if minimaxFuel m (b.set ij.1 ij.2 2) (d + 1) false > bestScore then
                minimaxFuel m (b.set ij.1 ij.2 2) (d + 1) false else bestScore)
            else bestScore) (-1000) := by
        apply foldl_congr_mem
        intro ij hij best
        by_cases h0 : b.get ij.1 ij.2 = 0
        · simp only [h0, if_true, hchild ij hij h0 2 (by decide) false]
        · simp only [h0, if_false]
      have hmin : cells.foldl (fun bestScore ij =>
            if b.get ij.1 ij.2 = 0 then
              (if minimaxFuel n (b.set ij.1 ij.2 1) (d + 1) true < bestScore then
                minimaxFuel n (b.set ij.1 ij.2 1) (d + 1) true else bestScore)
            else bestScore) 1000 =
          cells.foldl (fun bestScore ij =>
            if b.get ij.1 ij.2 = 0 then
              (if minimaxFuel m (b.set ij.1 ij.2 1) (d + 1) true < bestScore then
                minimaxFuel m (b.set ij.1 ij.2 1) (d + 1) true else bestScore)
            else bestScore) 1000 := by
        apply foldl_congr_mem
        intro ij hij best
        by_cases h0 : b.get ij.1 ij.2 = 0
        · simp only [h0, if_true, hchild ij hij h0 1 (by decide) true]
        · simp only [h0, if_false]
      rw [minimaxFuel_succ, minimaxFuel_succ, hmax, hmin]

theorem minimaxFuel_le (n : Nat) (b : Grid) (hv : b.valid) (d : Int) (x : Bool)
    (hd : d + n ≤ 10) : minimaxFuel n b d x ≤ 10 - d := by
  induction n generalizing b d x with
  | zero =>
    simp only [minimaxFuel]
    push_cast at hd
    omega
  | succ n ih =>
    push_cast at hd
    rw [minimaxFuel_succ]
    have hchild : ∀ ij ∈ cells, ∀ (v : Int), (v = 0 ∨ v = 1 ∨ v = 2) → ∀ (y : Bool),
        minimaxFuel n (b.set ij.1 ij.2 v) (d + 1) y ≤ 9 - d := by
      intro ij hij v hval y
      have := ih (b.set ij.1 ij.2 v) (valid_set b hv ij hij v hval) (d + 1) y (by omega)
      omega
    split_ifs with h1 h2 h3 h4
    · omega
    · omega
    · omega
    · rw [foldMax_le_iff (fun ij : Nat × Nat => b.get ij.1 ij.2 = 0)
        (fun ij : Nat × Nat => minimaxFuel n (b.set ij.1 ij.2 2) (d + 1) false)]
      refine ⟨by omega, fun ij hij _ => ?_⟩
      have := hchild ij hij 2 (Or.inr (Or.inr rfl)) false
      omega
    · have h0 : checkWin b = 0 := by
        rcases checkWin_range b hv with h | h | h | h
        · exact h
        · exact absurd ⟨by omega, h⟩ h2
        · exact absurd ⟨by omega, h⟩ h1
        · exact absurd ⟨by omega, h⟩ h3
      obtain ⟨ij, hij, he⟩ := checkWin_zero_empty b hv h0
      rw [foldMin_le_iff (fun ij : Nat × Nat => b.get ij.1 ij.2 = 0)
        (fun ij : Nat × Nat => minimaxFuel n (b.set ij.1 ij.2 1) (d + 1) true)]
      refine Or.inr ⟨ij, hij, he, ?_⟩
      have := hchild ij hij 1 (Or.inr (Or.inl rfl)) true
      omega

/-- Whether the score is non-negative does not depend on the depth the search
starts from, as long as the depth stays below 10. -/
theorem minimaxFuel_nonneg_shift (n : Nat) (b : Grid) (d1 d2 : Int) (x : Bool)
    (h1 : d1 + n ≤ 10) (h2 : d2 + n ≤ 10) :
    0 ≤ minimaxFuel n b d1 x ↔ 0 ≤ minimaxFuel n b d2 x := by
  induction n generalizing b d1 d2 x with
  | zero => simp [minimaxFuel]
  | succ n ih =>
    push_cast at h1 h2
    rw [minimaxFuel_succ, minimaxFuel_succ]
    split_ifs with c1 c2 c3 c4
    · constructor <;> intro _ <;> omega
    · constructor <;> intro _ <;> omega
    · exact Iff.rfl
    · rw [foldMax_ge_iff (fun ij : Nat × Nat => b.get ij.1 ij.2 = 0)
        (fun ij : Nat × Nat => minimaxFuel n (b.set ij.1 ij.2 2) (d1 + 1) false),
        foldMax_ge_iff (fun ij : Nat × Nat => b.get ij.1 ij.2 = 0)
        (fun ij : Nat × Nat => minimaxFuel n (b.set ij.1 ij.2 2) (d2 + 1) false)]
      constructor
      · rintro (h | ⟨ij, hij, he, hs⟩)
        · omega
        · exact Or.inr ⟨ij, hij, he, (ih _ (d1 + 1) (d2 + 1) false (by omega) (by omega)).1 hs⟩
      · rintro (h | ⟨ij, hij, he, hs⟩)
        · omega
        · exact Or.inr ⟨ij, hij, he, (ih _ (d1 + 1) (d2 + 1) false (by omega) (by omega)).2 hs⟩
    · rw [foldMin_ge_iff (fun ij : Nat × Nat => b.get ij.1 ij.2 = 0)
        (fun ij : Nat × Nat => minimaxFuel n (b.set ij.1 ij.2 1) (d1 + 1) true),
        foldMin_ge_iff (fun ij : Nat × Nat => b.get ij.1 ij.2 = 0)
        (fun ij : Nat × Nat => minimaxFuel n (b.set ij.1 ij.2 1) (d2 + 1) true)]
      constructor
      · rintro ⟨h, hall⟩
        exact ⟨by omega, fun ij hij he =>
          (ih _ (d1 + 1) (d2 + 1) true (by omega) (by omega)).1 (hall ij hij he)⟩
      · rintro ⟨h, hall⟩
        exact ⟨by omega, fun ij hij he =>
          (ih _ (d1 + 1) (d2 + 1) true (by omega) (by omega)).2 (hall ij hij he)⟩

/-! ## The scan of `botMove` -/

theorem botScan_nil (b : Grid) (init : Int × Option (Nat × Nat)) : botScan b [] init = init := rfl

theorem botScan_cons (b : Grid) (a : Nat × Nat) (rest : List (Nat × Nat))
    (init : Int × Option (Nat × Nat)) :
    botScan b (a :: rest) init =
      botScan b rest (if b.get a.1 a.2 = 0 then
        (if minimax (b.set a.1 a.2 2) 0 false > init.1 then
          (minimax (b.set a.1 a.2 2) 0 false, some a) else init)
        else init) := rfl

theorem botScan_score (b : Grid) (l : List (Nat × Nat)) (init : Int × Option (Nat × Nat)) :
    (botScan b l init).1 =
      l.foldl (fun best ij => if b.get ij.1 ij.2 = 0 then
        (if minimax (b.set ij.1 ij.2 2) 0 false > best then
          minimax (b.set ij.1 ij.2 2) 0 false else best) else best) init.1 := by
  induction l generalizing init with
  | nil => rfl
  | cons a rest ih =>
    rw [botScan_cons, ih, List.foldl_cons]
    congr 1
    split_ifs <;> rfl

theorem botScan_move (b : Grid) (l : List (Nat × Nat)) (init : Int × Option (Nat × Nat)) :
    botScan b l init = init ∨
      ∃ ij ∈ l, b.get ij.1 ij.2 = 0 ∧ (botScan b l init).2 = some ij ∧
        (botScan b l init).1 = minimax (b.set ij.1 ij.2 2) 0 false ∧
        init.1 < (botScan b l init).1 := by
  induction l generalizing init with
  | nil => exact Or.inl rfl
  | cons a rest ih =>
    rw [botScan_cons]
    by_cases h0 : b.get a.1 a.2 = 0
    · by_cases hs : minimax (b.set a.1 a.2 2) 0 false > init.1
      · simp only [h0, hs, if_true]
        rcases ih (minimax (b.set a.1 a.2 2) 0 false, some a) with h | ⟨ij, hij, he, hm, hv, hlt⟩
        · right
          refine ⟨a, List.mem_cons_self a rest, h0, ?_, ?_, ?_⟩
          · rw [h]
          · rw [h]
          · rw [h]; exact hs
        · right
          refine ⟨ij, List.mem_cons_of_mem a hij, he, hm, hv, ?_⟩
          simp only at hlt
          omega
      · simp only [h0, hs, if_true, if_false]
        rcases ih init with h | ⟨ij, hij, he, hm, hv, hlt⟩
        · exact Or.inl h
        · exact Or.inr ⟨ij, List.mem_cons_of_mem a hij, he, hm, hv, hlt⟩
    · simp only [h0, if_false]
      rcases ih init with h | ⟨ij, hij, he, hm, hv, hlt⟩
      · exact Or.inl h
      · exact Or.inr ⟨ij, List.mem_cons_of_mem a hij, he, hm, hv, hlt⟩

/-- The score kept by the scan is at least the score of every empty cell. -/
theorem botScan_max (b : Grid) (l : List (Nat × Nat)) (init : Int × Option (Nat × Nat))
    (ij : Nat × Nat) (hij : ij ∈ l) (he : b.get ij.1 ij.2 = 0) :
    minimax (b.set ij.1 ij.2 2) 0 false ≤ (botScan b l init).1 := by
  rw [botScan_score, foldMax_ge_iff (fun ij : Nat × Nat => b.get ij.1 ij.2 = 0)
    (fun ij : Nat × Nat => minimax (b.set ij.1 ij.2 2) 0 false)]
  exact Or.inr ⟨ij, hij, he, le_refl _⟩

theorem mem_cells_le (ij : Nat × Nat) (h : ij ∈ cells) : ij.1 ≤ 2 ∧ ij.2 ≤ 2 := by
  simp only [cells, List.mem_cons, List.mem_singleton, List.not_mem_nil, or_false] at h
  rcases h with h | h | h | h | h | h | h | h | h <;> subst h <;> decide

theorem randomMove_empty (pick : Nat) (b : Grid) (h : ∃ ij ∈ cells, b.get ij.1 ij.2 = 0) :
    randomMove pick b ∈ cells ∧ b.get (randomMove pick b).1 (randomMove pick b).2 = 0 := by
  obtain ⟨ij, hij, he⟩ := h
  have hmem : ij ∈ cells.filter (fun ij => b.get ij.1 ij.2 = 0) := by
    simp [List.mem_filter, hij, he]
  have hpos : 0 < (cells.filter (fun ij => b.get ij.1 ij.2 = 0)).length :=
    List.length_pos_of_mem hmem
  have hlt : pick % (cells.filter (fun ij => b.get ij.1 ij.2 = 0)).length <
      (cells.filter (fun ij => b.get ij.1 ij.2 = 0)).length := Nat.mod_lt _ hpos
  have hr : randomMove pick b =
      (cells.filter (fun ij => b.get ij.1 ij.2 = 0))[pick %
        (cells.filter (fun ij => b.get ij.1 ij.2 = 0)).length] := by
    unfold randomMove
    simp only
    rw [if_neg (by omega), List.getD_eq_getElem _ _ hlt]
  have hin : randomMove pick b ∈ cells.filter (fun ij => b.get ij.1 ij.2 = 0) := by
    rw [hr]
    exact List.getElem_mem _
  rw [List.mem_filter] at hin
  exact ⟨hin.1, by simpa using hin.2⟩

theorem botMove_empty (pick : Nat) (b : Grid) (h : ∃ ij ∈ cells, b.get ij.1 ij.2 = 0) :
    botMove pick b ∈ cells ∧ b.get (botMove pick b).1 (botMove pick b).2 = 0 := by
  unfold botMove
  rcases botScan_move b cells (-1000, none) with hr | ⟨ij, hij, he, hm, _, _⟩
  · rw [hr]
    exact randomMove_empty pick b h
  · rw [hm]
    exact ⟨hij, he⟩

/-- C5: on every board with at least one empty cell (whatever its other cells
hold, so in particular with cells in {0,1,2}), `botMove` returns a pair
`(r, c)` with `r ≤ 2`, `c ≤ 2` and `board[r][c] = 0`, whether the search or the
random fallback produced it. -/
theorem botMove_returns_empty_cell (pick : Nat) (b : Grid)
    (h : ∃ ij ∈ cells, b.get ij.1 ij.2 = 0) :
    (botMove pick b).1 ≤ 2 ∧ (botMove pick b).2 ≤ 2 ∧
      b.get (botMove pick b).1 (botMove pick b).2 = 0 := by
  have hb := botMove_empty pick b h
  have hle := mem_cells_le _ hb.1
  exact ⟨hle.1, hle.2, hb.2⟩

theorem botMove_returns_empty_cell_witness :
    (botMove 7 ⟨1, 2, 1, 1, 2, 2, 2, 1, 0⟩).1 ≤ 2 ∧ (botMove 7 ⟨1, 2, 1, 1, 2, 2, 2, 1, 0⟩).2 ≤ 2 ∧
      (⟨1, 2, 1, 1, 2, 2, 2, 1, 0⟩ : Grid).get (botMove 7 ⟨1, 2, 1, 1, 2, 2, 2, 1, 0⟩).1
        (botMove 7 ⟨1, 2, 1, 1, 2, 2, 2, 1, 0⟩).2 = 0 :=
  botMove_returns_empty_cell 7 ⟨1, 2, 1, 1, 2, 2, 2, 1, 0⟩ ⟨(2, 2), by decide, rfl⟩

theorem minimax_win (b : Grid) (d : Int) (x : Bool) (h : checkWin b = 2) :
    minimax b d x = 10 - d := by
  unfold minimax
  rw [minimaxFuel_succ, if_pos ⟨by omega, h⟩]

theorem minimax_not_win_le (b : Grid) (hv : b.valid) (h : checkWin b ≠ 2) :
    minimax b 0 false ≤ 9 := by
  unfold minimax
  rw [minimaxFuel_succ]
  rcases checkWin_range b hv with h0 | h1 | h2 | h3
  · obtain ⟨ij, hij, he⟩ := checkWin_zero_empty b hv h0
    simp only [h0, ne_eq, not_true_eq_false, false_and, if_false, Bool.false_eq_true]
    rw [foldMin_le_iff (fun ij : Nat × Nat => b.get ij.1 ij.2 = 0)
      (fun ij : Nat × Nat => minimaxFuel 9 (b.set ij.1 ij.2 1) (0 + 1) true)]
    refine Or.inr ⟨ij, hij, he, ?_⟩
    have := minimaxFuel_le 9 (b.set ij.1 ij.2 1) (valid_set b hv ij hij 1 (Or.inr (Or.inl rfl)))
      (0 + 1) true (by norm_num)
    omega
  · simp [h1]
  · exact absurd h2 h
  · simp [h3]

/-- With the repaired detector: on a board with cells in {0,1,2} on which some
empty cell completes a line of 2s (`checkWin` of the board with 2 placed there
is 2), `botMove` returns a cell that does so. -/
theorem botMove_takes_immediate_win (pick : Nat) (b : Grid) (hv : b.valid)
    (hwin : ∃ ij ∈ cells, b.get ij.1 ij.2 = 0 ∧ checkWin (b.set ij.1 ij.2 2) = 2) :
    checkWin (b.set (botMove pick b).1 (botMove pick b).2 2) = 2 := by
  obtain ⟨w, hw, hwe, hww⟩ := hwin
  have hmax := botScan_max b cells (-1000, none) w hw hwe
  rw [minimax_win _ 0 false hww] at hmax
  unfold botMove
  rcases botScan_move b cells (-1000, none) with hr | ⟨ij, hij, he, hm, hs, _⟩
  · rw [hr] at hmax
    simp at hmax
  · rw [hm]
    by_contra hne
    have := minimax_not_win_le (b.set ij.1 ij.2 2)
      (valid_set b hv ij hij 2 (Or.inr (Or.inr rfl))) hne
    omega

theorem botMove_takes_immediate_win_witness :
    checkWin ((⟨1, 1, 0, 2, 2, 0, 1, 0, 0⟩ : Grid).set (botMove 0 ⟨1, 1, 0, 2, 2, 0, 1, 0, 0⟩).1
      (botMove 0 ⟨1, 1, 0, 2, 2, 0, 1, 0, 0⟩).2 2) = 2 :=
  botMove_takes_immediate_win 0 ⟨1, 1, 0, 2, 2, 0, 1, 0, 0⟩ (by decide)
    ⟨(1, 2), by decide, by decide, by decide⟩

/-! ## The match loop: one message -/

theorem MatchLoop_single (picks : Nat → Nat) (s : TTTState) (msg : MatchData) :
    MatchLoop picks s [msg] = handleMessage (picks 0) s msg := rfl

theorem handleMessage_move (pick : Nat) (s : TTTState) (msg : MatchData) (mv : Move)
    (hop : msg.OpCode = 1) (hdata : msg.Data = some mv) (hin : ¬ outOfRange mv) :
    handleMessage pick s msg = botReply pick (humanMove s msg.UserId mv) := by
  unfold handleMessage
  rw [if_neg (not_not.2 hop), hdata]
  exact if_neg hin

theorem handleMessage_outOfRange (pick : Nat) (s : TTTState) (msg : MatchData) (mv : Move)
    (hdata : msg.Data = some mv) (hout : outOfRange mv) : handleMessage pick s msg = s := by
  unfold handleMessage
  by_cases hop : msg.OpCode ≠ 1
  · rw [if_pos hop]
  · rw [if_neg hop, hdata]
    exact if_pos hout

theorem botReply_not_due (pick : Nat) (s : TTTState) (h : ¬ botDue s) : botReply pick s = s := by
  unfold botReply
  rw [if_neg h]

theorem humanMove_rejected (s : TTTState) (userId : String) (mv : Move)
    (h : ¬ moveAccepted s userId mv) : humanMove s userId mv = s := by
  unfold humanMove
  rw [if_neg h]

theorem resolvePid_of_senderOnTurn (s : TTTState) (userId : String)
    (h : senderOnTurn s userId) : resolvePid s userId = s.Turn := by
  unfold resolvePid
  rcases h with ⟨ht, hu⟩ | ⟨ht, hm, hu, hne⟩
  · rw [if_pos hu, ht]
  · rw [if_neg hne, if_pos ⟨hm, hu⟩, ht]

/-- An illegal op-code-1 move message (out of range, wrong sender, occupied
cell or decided outcome) leaves every field of a state with Turn in {1,2}
unchanged when the message is out of range or the bot-reply block does not
run on the state (it runs on Mode "pvc", Turn 2, Winner 0 only). -/
theorem illegal_move_ignored (picks : Nat → Nat) (s : TTTState) (msg : MatchData) (mv : Move)
    (hop : msg.OpCode = 1) (hdata : msg.Data = some mv) (hturn : s.Turn = 1 ∨ s.Turn = 2)
    (hill : illegalMove s msg.UserId mv) (hwait : outOfRange mv ∨ ¬ botDue s) :
    MatchLoop picks s [msg] = s := by
  rw [MatchLoop_single]
  by_cases hout : outOfRange mv
  · exact handleMessage_outOfRange _ s msg mv hdata hout
  · have hnd : ¬ botDue s := hwait.resolve_left hout
    rw [handleMessage_move _ s msg mv hop hdata hout]
    have hrej : ¬ moveAccepted s msg.UserId mv := by
      rintro ⟨hpid, hcell, hw⟩
      rcases hill with h | h | h | h
      · exact hout h
      · unfold resolvePid at hpid
        by_cases hm : s.Mode = "pvc"
        · rw [if_pos hm] at h
          have hnp : ¬ (s.Mode = "pvp" ∧ msg.UserId = s.P2) := by
            rintro ⟨hp, _⟩
            rw [hm] at hp
            exact absurd hp (by decide)
          rw [if_neg h, if_neg hnp] at hpid
          omega
        · rw [if_neg hm] at h
          unfold seatOccupant at h
          rcases hturn with ht | ht
          · rw [if_pos ht] at h
            rw [if_neg h] at hpid
            split_ifs at hpid <;> omega
          · rw [if_neg (by omega)] at h
            split_ifs at hpid with h1 h2
            · omega
            · exact h h2.2
            · omega
      · exact h hcell
      · exact h hw
    rw [humanMove_rejected s _ mv hrej, botReply_not_due _ s hnd]

/-- On a state with Winner 0, an in-range move message at an empty
cell from the sender that `MatchLoop` takes for the seat `s` whose turn it is
(the occupant of P1 for seat 1; for seat 2 the occupant of P2 in pvp mode, if
not also seated at P1), such that `checkWin` of the board with `s` placed at
the target is non-zero, returns the state with the target cell set to `s`,
Winner set to that `checkWin` value and everything else, Turn included,
unchanged; no bot move is applied. -/
theorem deciding_move_applied (picks : Nat → Nat) (s : TTTState) (msg : MatchData) (mv : Move)
    (hop : msg.OpCode = 1) (hdata : msg.Data = some mv) (hw : s.Winner = 0)
    (hin : ¬ outOfRange mv) (hsender : senderOnTurn s msg.UserId)
    (hcell : s.Board.get mv.Row.toNat mv.Col.toNat = 0)
    (hdecides : checkWin (s.Board.set mv.Row.toNat mv.Col.toNat s.Turn) ≠ 0) :
    MatchLoop picks s [msg] =
      { s with Board := s.Board.set mv.Row.toNat mv.Col.toNat s.Turn,
               Winner := checkWin (s.Board.set mv.Row.toNat mv.Col.toNat s.Turn) } := by
  rw [MatchLoop_single, handleMessage_move _ s msg mv hop hdata hin]
  have hpid := resolvePid_of_senderOnTurn s msg.UserId hsender
  have hacc : moveAccepted s msg.UserId mv := ⟨hpid, hcell, hw⟩
  have hh : humanMove s msg.UserId mv =
      { s with Board := s.Board.set mv.Row.toNat mv.Col.toNat s.Turn,
               Winner := checkWin (s.Board.set mv.Row.toNat mv.Col.toNat s.Turn) } := by
    unfold humanMove
    rw [if_pos hacc]
    simp only [hpid]
    rw [if_neg hdecides]
  rw [hh, botReply_not_due]
  rintro ⟨_, _, h0⟩
  exact hdecides h0

theorem humanMove_fields (s : TTTState) (userId : String) (mv : Move)
    (h : moveAccepted s userId mv) :
    (humanMove s userId mv).Board = s.Board.set mv.Row.toNat mv.Col.toNat s.Turn ∧
      (humanMove s userId mv).Winner =
        checkWin (s.Board.set mv.Row.toNat mv.Col.toNat s.Turn) ∧
      (humanMove s userId mv).Turn =
        (if checkWin (s.Board.set mv.Row.toNat mv.Col.toNat s.Turn) = 0 then otherSeat s.Turn
          else s.Turn) ∧
      (humanMove s userId mv).P1 = s.P1 ∧ (humanMove s userId mv).P2 = s.P2 ∧
      (humanMove s userId mv).Mode = s.Mode := by
  unfold humanMove otherSeat
  rw [if_pos h]
  simp only [h.1]
  split_ifs <;> exact ⟨rfl, rfl, rfl, rfl, rfl, rfl⟩

theorem botReply_fields (pick : Nat) (s : TTTState) (h : botDue s) :
    (botReply pick s).Board = s.Board.set (botMove pick s.Board).1 (botMove pick s.Board).2 2 ∧
      (botReply pick s).Winner =
        checkWin (s.Board.set (botMove pick s.Board).1 (botMove pick s.Board).2 2) ∧
      (botReply pick s).Turn =
        (if checkWin (s.Board.set (botMove pick s.Board).1 (botMove pick s.Board).2 2) = 0
          then 1 else s.Turn) ∧
      (botReply pick s).P1 = s.P1 ∧ (botReply pick s).P2 = s.P2 ∧
      (botReply pick s).Mode = s.Mode := by
  unfold botReply
  rw [if_pos h]
  simp only
  split_ifs <;> exact ⟨rfl, rfl, rfl, rfl, rfl, rfl⟩

theorem joinOne_keeps (s : TTTState) (p : String) :
    (joinOne s p).Board = s.Board ∧ (joinOne s p).Turn = s.Turn ∧
      (joinOne s p).Winner = s.Winner ∧ (joinOne s p).Mode = s.Mode := by
  unfold joinOne
  split_ifs <;> exact ⟨rfl, rfl, rfl, rfl⟩

theorem MatchJoin_keeps (s : TTTState) (ps : List String) :
    (MatchJoin s ps).Board = s.Board ∧ (MatchJoin s ps).Turn = s.Turn ∧
      (MatchJoin s ps).Winner = s.Winner ∧ (MatchJoin s ps).Mode = s.Mode := by
  have hfold : ∀ (l : List String) (t : TTTState),
      (l.foldl joinOne t).Board = t.Board ∧ (l.foldl joinOne t).Turn = t.Turn ∧
        (l.foldl joinOne t).Winner = t.Winner ∧ (l.foldl joinOne t).Mode = t.Mode := by
    intro l
    induction l with
    | nil => intro t; exact ⟨rfl, rfl, rfl, rfl⟩
    | cons p rest ih =>
      intro t
      rw [List.foldl_cons]
      obtain ⟨h1, h2, h3, h4⟩ := ih (joinOne t p)
      obtain ⟨k1, k2, k3, k4⟩ := joinOne_keeps t p
      exact ⟨h1.trans k1, h2.trans k2, h3.trans k3, h4.trans k4⟩
  unfold MatchJoin
  simp only
  split_ifs
  · exact hfold ps s
  · exact hfold ps s

theorem MatchLeave_keeps (s : TTTState) (ps : List String) :
    (MatchLeave s ps).Board = s.Board ∧ (MatchLeave s ps).Turn = s.Turn ∧
      (MatchLeave s ps).Mode = s.Mode := by
  unfold MatchLeave
  split_ifs <;> exact ⟨rfl, rfl, rfl⟩

theorem handleMessage_decided (pick : Nat) (s : TTTState) (msg : MatchData)
    (h : s.Winner ≠ 0) : handleMessage pick s msg = s := by
  unfold handleMessage
  split_ifs with hop
  · rfl
  · cases hd : msg.Data with
    | none => rfl
    | some mv =>
      simp only
      split_ifs
      · rfl
      · rw [humanMove_rejected s _ mv (fun hacc => h hacc.2.2),
          botReply_not_due _ s (fun hdue => h hdue.2.2)]

theorem MatchLoop_decided (picks : Nat → Nat) (s : TTTState) (msgs : List MatchData)
    (h : s.Winner ≠ 0) : MatchLoop picks s msgs = s := by
  induction msgs generalizing picks with
  | nil => rfl
  | cons msg rest ih =>
    unfold MatchLoop
    rw [handleMessage_decided _ s msg h]
    exact ih _

/-- C9: on a state with Winner different from 0, every callback - `MatchJoin`
and `MatchLeave` with any participants, `MatchLoop` with any messages and any
random draws - returns a state with the same Winner, the same Board and the
same Turn. -/
theorem decided_state_is_final (s : TTTState) (h : s.Winner ≠ 0) (c : Call) :
    (c.apply s).Winner = s.Winner ∧ (c.apply s).Board = s.Board ∧
      (c.apply s).Turn = s.Turn := by
  cases c with
  | join ps =>
    have := MatchJoin_keeps s ps
    exact ⟨this.2.2.1, this.1, this.2.1⟩
  | leave ps =>
    have := MatchLeave_keeps s ps
    refine ⟨?_, this.1, this.2.1⟩
    show (MatchLeave s ps).Winner = s.Winner
    unfold MatchLeave
    rw [if_neg h]
  | loop picks msgs =>
    show (MatchLoop picks s msgs).Winner = s.Winner ∧ (MatchLoop picks s msgs).Board = s.Board ∧
      (MatchLoop picks s msgs).Turn = s.Turn
    rw [MatchLoop_decided picks s msgs h]
    exact ⟨rfl, rfl, rfl⟩

theorem decided_state_is_final_witness :
    ((Call.loop (fun _ => 0) [⟨1, "b", some ⟨1, 1⟩⟩]).apply
        ⟨⟨1, 1, 1, 2, 2, 0, 0, 0, 0⟩, 1, "a", "b", 1, "pvp"⟩).Winner = 1 ∧
      ((Call.loop (fun _ => 0) [⟨1, "b", some ⟨1, 1⟩⟩]).apply
        ⟨⟨1, 1, 1, 2, 2, 0, 0, 0, 0⟩, 1, "a", "b", 1, "pvp"⟩).Board =
          ⟨1, 1, 1, 2, 2, 0, 0, 0, 0⟩ ∧
      ((Call.loop (fun _ => 0) [⟨1, "b", some ⟨1, 1⟩⟩]).apply
        ⟨⟨1, 1, 1, 2, 2, 0, 0, 0, 0⟩, 1, "a", "b", 1, "pvp"⟩).Turn = 1 :=
  decided_state_is_final ⟨⟨1, 1, 1, 2, 2, 0, 0, 0, 0⟩, 1, "a", "b", 1, "pvp"⟩ (by decide)
    (Call.loop (fun _ => 0) [⟨1, "b", some ⟨1, 1⟩⟩])

/-! ## Board writes along an execution -/

theorem keptBy_refl (b : Grid) : b.keptBy b := fun _ _ _ => rfl

theorem keptBy_trans (b b2 b3 : Grid) (h1 : b.keptBy b2) (h2 : b2.keptBy b3) : b.keptBy b3 := by
  intro ij hij hne
  have e1 := h1 ij hij hne
  have e2 := h2 ij hij (by rw [e1]; exact hne)
  rw [e2, e1]

theorem keptBy_set (b : Grid) (ij : Nat × Nat) (hij : ij ∈ cells) (h0 : b.get ij.1 ij.2 = 0)
    (v : Int) : b.keptBy (b.set ij.1 ij.2 v) := by
  intro kl hkl hne
  by_cases hk : kl = ij
  · subst hk
    exact absurd h0 hne
  · exact get_set_other b ij kl hij hkl hk v

theorem inRange_mem_cells (mv : Move) (h : ¬ outOfRange mv) :
    (mv.Row.toNat, mv.Col.toNat) ∈ cells := by
  unfold outOfRange at h
  push_neg at h
  obtain ⟨h1, h2, h3, h4⟩ := h
  have hr : mv.Row.toNat = 0 ∨ mv.Row.toNat = 1 ∨ mv.Row.toNat = 2 := by omega
  have hc : mv.Col.toNat = 0 ∨ mv.Col.toNat = 1 ∨ mv.Col.toNat = 2 := by omega
  rcases hr with hr | hr | hr <;> rcases hc with hc | hc | hc <;> rw [hr, hc] <;> decide

theorem otherSeat_range (t : Int) : otherSeat t = 1 ∨ otherSeat t = 2 := by
  unfold otherSeat
  split_ifs
  · exact Or.inr rfl
  · exact Or.inl rfl

theorem humanMove_step (s : TTTState) (userId : String) (mv : Move) (hin : ¬ outOfRange mv)
    (hc : consistent s) :
    consistent (humanMove s userId mv) ∧ s.Board.keptBy (humanMove s userId mv).Board ∧
      (humanMove s userId mv).Board.filled =
        s.Board.filled + (if moveAccepted s userId mv then 1 else 0) := by
  by_cases hacc : moveAccepted s userId mv
  · obtain ⟨hB, hW, hT, _, _, _⟩ := humanMove_fields s userId mv hacc
    have hcell := inRange_mem_cells mv hin
    have hempty : s.Board.get (mv.Row.toNat, mv.Col.toNat).1 (mv.Row.toNat, mv.Col.toNat).2 = 0 :=
      hacc.2.1
    have hval : s.Turn = 0 ∨ s.Turn = 1 ∨ s.Turn = 2 := Or.inr hc.2.1
    have hne : s.Turn ≠ 0 := by
      rcases hc.2.1 with h | h <;> omega
    refine ⟨⟨?_, ?_, ?_⟩, ?_, ?_⟩
    · rw [hB]
      exact valid_set s.Board hc.1 _ hcell s.Turn hval
    · rw [hT]
      split_ifs
      · exact otherSeat_range s.Turn
      · exact hc.2.1
    · intro h0
      rw [hB, ← hW]
      exact h0
    · rw [hB]
      exact keptBy_set s.Board _ hcell hempty s.Turn
    · rw [hB, if_pos hacc]
      exact filled_set s.Board _ hcell hempty s.Turn hne
  · rw [humanMove_rejected s userId mv hacc, if_neg hacc]
    exact ⟨hc, keptBy_refl _, rfl⟩

theorem botReply_step (pick : Nat) (s : TTTState) (hc : consistent s) :
    consistent (botReply pick s) ∧ s.Board.keptBy (botReply pick s).Board ∧
      (botReply pick s).Board.filled = s.Board.filled + (if botDue s then 1 else 0) := by
  by_cases hdue : botDue s
  · obtain ⟨hB, hW, hT, _, _, _⟩ := botReply_fields pick s hdue
    have hex := checkWin_zero_empty s.Board hc.1 (hc.2.2 hdue.2.2)
    obtain ⟨hcell, hempty⟩ := botMove_empty pick s.Board hex
    refine ⟨⟨?_, ?_, ?_⟩, ?_, ?_⟩
    · rw [hB]
      exact valid_set s.Board hc.1 _ hcell 2 (Or.inr (Or.inr rfl))
    · rw [hT]
      split_ifs
      · exact Or.inl rfl
      · exact hc.2.1
    · intro h0
      rw [hB, ← hW]
      exact h0
    · rw [hB]
      exact keptBy_set s.Board _ hcell hempty 2
    · rw [hB, if_pos hdue]
      exact filled_set s.Board _ hcell hempty 2 (by decide)
  · rw [botReply_not_due pick s hdue, if_neg hdue]
    exact ⟨hc, keptBy_refl _, rfl⟩

theorem handleMessage_step (pick : Nat) (s : TTTState) (msg : MatchData) (hc : consistent s) :
    consistent (handleMessage pick s msg) ∧ s.Board.keptBy (handleMessage pick s msg).Board ∧
      (handleMessage pick s msg).Board.filled = s.Board.filled + movesOfMessage s msg := by
  by_cases hop : msg.OpCode ≠ 1
  · have h1 : handleMessage pick s msg = s := by
      unfold handleMessage
      rw [if_pos hop]
    have h2 : movesOfMessage s msg = 0 := by
      unfold movesOfMessage
      rw [if_pos hop]
    rw [h1, h2]
    exact ⟨hc, keptBy_refl _, rfl⟩
  · cases hd : msg.Data with
    | none =>
      have h1 : handleMessage pick s msg = s := by
        unfold handleMessage
        rw [if_neg hop, hd]
      have h2 : movesOfMessage s msg = 0 := by
        unfold movesOfMessage
        rw [if_neg hop, hd]
      rw [h1, h2]
      exact ⟨hc, keptBy_refl _, rfl⟩
    | some mv =>
      by_cases hout : outOfRange mv
      · have h2 : movesOfMessage s msg = 0 := by
          unfold movesOfMessage
          rw [if_neg hop, hd]
          exact if_pos hout
        rw [handleMessage_outOfRange pick s msg mv hd hout, h2]
        exact ⟨hc, keptBy_refl _, rfl⟩
      · have h2 : movesOfMessage s msg =
            (if moveAccepted s msg.UserId mv then 1 else 0) +
              (if botDue (humanMove s msg.UserId mv) then 1 else 0) := by
          unfold movesOfMessage
          rw [if_neg hop, hd]
          exact if_neg hout
        rw [handleMessage_move pick s msg mv (not_not.1 hop) hd hout, h2]
        obtain ⟨c1, k1, f1⟩ := humanMove_step s msg.UserId mv hout hc
        obtain ⟨c2, k2, f2⟩ := botReply_step pick (humanMove s msg.UserId mv) c1
        refine ⟨c2, keptBy_trans _ _ _ k1 k2, ?_⟩
        rw [f2, f1]
        omega

theorem MatchLoop_step (picks : Nat → Nat) (s : TTTState) (msgs : List MatchData)
    (hc : consistent s) :
    consistent (MatchLoop picks s msgs) ∧ s.Board.keptBy (MatchLoop picks s msgs).Board ∧
      (MatchLoop picks s msgs).Board.filled = s.Board.filled + movesOfLoop picks s msgs := by
  induction msgs generalizing picks s with
  | nil => exact ⟨hc, keptBy_refl _, rfl⟩
  | cons msg rest ih =>
    unfold MatchLoop movesOfLoop
    obtain ⟨c1, k1, f1⟩ := handleMessage_step (picks 0) s msg hc
    obtain ⟨c2, k2, f2⟩ := ih (fun k => picks (k + 1)) (handleMessage (picks 0) s msg) c1
    refine ⟨c2, keptBy_trans _ _ _ k1 k2, ?_⟩
    rw [f2, f1]
    omega

theorem Call_step (s : TTTState) (c : Call) (hc : consistent s) :
    consistent (c.apply s) ∧ s.Board.keptBy (c.apply s).Board ∧
      (c.apply s).Board.filled = s.Board.filled + c.moves s := by
  cases c with
  | join ps =>
    obtain ⟨hB, hT, hW, _⟩ := MatchJoin_keeps s ps
    show consistent (MatchJoin s ps) ∧ s.Board.keptBy (MatchJoin s ps).Board ∧
      (MatchJoin s ps).Board.filled = s.Board.filled + 0
    unfold consistent
    rw [hB, hT, hW]
    exact ⟨hc, keptBy_refl _, rfl⟩
  | leave ps =>
    obtain ⟨hB, hT, _⟩ := MatchLeave_keeps s ps
    show consistent (MatchLeave s ps) ∧ s.Board.keptBy (MatchLeave s ps).Board ∧
      (MatchLeave s ps).Board.filled = s.Board.filled + 0
    unfold consistent
    rw [hB, hT]
    refine ⟨⟨hc.1, hc.2.1, fun h0 => ?_⟩, keptBy_refl _, rfl⟩
    unfold MatchLeave at h0
    split_ifs at h0 with hw
    · simp at h0
    · exact absurd h0 hw
  | loop picks msgs => exact MatchLoop_step picks s msgs hc

theorem run_step (s : TTTState) (calls : List Call) (hc : consistent s) :
    consistent (run s calls) ∧ s.Board.keptBy (run s calls).Board ∧
      (run s calls).Board.filled = s.Board.filled + runMoves s calls := by
  induction calls generalizing s with
  | nil => exact ⟨hc, keptBy_refl _, rfl⟩
  | cons c rest ih =>
    unfold run runMoves
    obtain ⟨c1, k1, f1⟩ := Call_step s c hc
    obtain ⟨c2, k2, f2⟩ := ih (c.apply s) c1
    refine ⟨c2, keptBy_trans _ _ _ k1 k2, ?_⟩
    rw [f2, f1]
    omega

theorem MatchInit_consistent (params : String → Option ParamValue) :
    consistent (MatchInit params) ∧ (MatchInit params).Board.filled = 0 := by
  refine ⟨⟨?_, Or.inl rfl, fun _ => ?_⟩, ?_⟩
  · show emptyGrid.valid
    decide
  · show checkWin emptyGrid = 0
    decide
  · show emptyGrid.filled = 0
    decide

/-- With the repaired detector: along every execution that starts from the
state of `MatchInit` and applies any callbacks (`MatchJoin`, `MatchLeave`, `MatchLoop` with any
participants, messages and random draws), a cell that is non-empty in the
state reached after some calls holds the same value after any further calls;
the further calls raise the number of non-empty cells by exactly the number of
board writes they perform (accepted human moves and bot replies); and the
number of non-empty cells equals the number of board writes performed since
`MatchInit`. -/
theorem board_cells_kept_and_counted (params : String → Option ParamValue)
    (calls further : List Call) :
    (∀ ij ∈ cells, (run (MatchInit params) calls).Board.get ij.1 ij.2 ≠ 0 →
        (run (run (MatchInit params) calls) further).Board.get ij.1 ij.2 =
          (run (MatchInit params) calls).Board.get ij.1 ij.2) ∧
      (run (run (MatchInit params) calls) further).Board.filled =
        (run (MatchInit params) calls).Board.filled +
          runMoves (run (MatchInit params) calls) further ∧
      (run (MatchInit params) calls).Board.filled = runMoves (MatchInit params) calls := by
  obtain ⟨c0, f0⟩ := MatchInit_consistent params
  obtain ⟨c1, _, f1⟩ := run_step (MatchInit params) calls c0
  obtain ⟨_, k2, f2⟩ := run_step (run (MatchInit params) calls) further c1
  refine ⟨k2, f2, ?_⟩
  rw [f1, f0]
  omega

/-! ## The quick position check agrees with the detector and the search -/

theorem lineHit_iff (a b c : Mark) :
    (a.toInt ≠ 0 ∧ a.toInt = b.toInt ∧ a.toInt = c.toInt) ↔ lineHit a b c = true := by
  cases a <;> cases b <;> cases c <;> decide

theorem isBlank_iff (a : Mark) : a.toInt = 0 ↔ a.isBlank = true := by
  cases a <;> decide

theorem wins_toInt (a : Mark) : a.wins.toInt = a.toInt := by
  cases a <;> rfl

theorem emptyScan_markGrid (a b c d e f g h i : Mark) :
    emptyScan (markGrid a b c d e f g h i) cells =
      (a.isBlank || b.isBlank || c.isBlank || d.isBlank || e.isBlank || f.isBlank ||
        g.isBlank || h.isBlank || i.isBlank) := by
  simp only [cells, emptyScan, markGrid, Grid.get, isBlank_iff]
  cases a.isBlank <;> cases b.isBlank <;> cases c.isBlank <;> cases d.isBlank <;>
    cases e.isBlank <;> cases f.isBlank <;> cases g.isBlank <;> cases h.isBlank <;>
    cases i.isBlank <;> rfl

theorem lineScan_markGrid (a b c d e f g h i : Mark) :
    lineScan (markGrid a b c d e f g h i) lines =
      if lineHit a b c then some a.toInt
      else if lineHit d e f then some d.toInt
      else if lineHit g h i then some g.toInt
      else if lineHit a d g then some a.toInt
      else if lineHit b e h then some b.toInt
      else if lineHit c f i then some c.toInt
      else if lineHit a e i then some a.toInt
      else if lineHit c e g then some c.toInt
      else none := by
  simp only [lines, lineScan, markGrid, Grid.get, lineHit_iff]

theorem checkWin_markGrid (a b c d e f g h i : Mark) :
    checkWin (markGrid a b c d e f g h i) = (quickCheck a b c d e f g h i).toInt := by
  unfold checkWin quickCheck
  rw [lineScan_markGrid, emptyScan_markGrid]
  split_ifs <;> first | exact (wins_toInt _).symm | rfl

theorem botHolds_succ (n : Nat) (botToMove : Bool) (a b c d e f g h i : Mark) :
    botHolds (n + 1) botToMove a b c d e f g h i =
      match quickCheck a b c d e f g h i with
      | Outcome.humanWins => false
      | Outcome.botWins => true
      | Outcome.draw => true
      | Outcome.undecided =>
        match botToMove with
        | true =>
          (a.isBlank && botHolds n false Mark.bot b c d e f g h i) ||
          (b.isBlank && botHolds n false a Mark.bot c d e f g h i) ||
          (c.isBlank && botHolds n false a b Mark.bot d e f g h i) ||
          (d.isBlank && botHolds n false a b c Mark.bot e f g h i) ||
          (e.isBlank && botHolds n false a b c d Mark.bot f g h i) ||
          (f.isBlank && botHolds n false a b c d e Mark.bot g h i) ||
          (g.isBlank && botHolds n false a b c d e f Mark.bot h i) ||
          (h.isBlank && botHolds n false a b c d e f g Mark.bot i) ||
          (i.isBlank && botHolds n false a b c d e f g h Mark.bot)
        | false =>
          (!a.isBlank || botHolds n true Mark.human b c d e f g h i) &&
          (!b.isBlank || botHolds n true a Mark.human c d e f g h i) &&
          (!c.isBlank || botHolds n true a b Mark.human d e f g h i) &&
          (!d.isBlank || botHolds n true a b c Mark.human e f g h i) &&
          (!e.isBlank || botHolds n true a b c d Mark.human f g h i) &&
          (!f.isBlank || botHolds n true a b c d e Mark.human g h i) &&
          (!g.isBlank || botHolds n true a b c d e f Mark.human h i) &&
          (!h.isBlank || botHolds n true a b c d e f g Mark.human i) &&
          (!i.isBlank || botHolds n true a b c d e f g h Mark.human) := rfl

/-- When the quick search says the bot can avoid a loss, the score of `minimax`
for the position is non-negative. -/
theorem botHolds_sound (n : Nat) (botToMove : Bool) (a b c d e f g h i : Mark) (depth : Int)
    (hd : depth + n ≤ 10) (hold : botHolds n botToMove a b c d e f g h i = true) :
    0 ≤ minimaxFuel n (markGrid a b c d e f g h i) depth botToMove := by
  induction n generalizing botToMove a b c d e f g h i depth with
  | zero => simp [botHolds] at hold
  | succ n ih =>
    push_cast at hd
    rw [botHolds_succ] at hold
    rw [minimaxFuel_succ, checkWin_markGrid]
    cases hq : quickCheck a b c d e f g h i with
    | humanWins => simp [hq] at hold
    | botWins =>
      simp only [Outcome.toInt]
      rw [if_pos (by decide)]
      omega
    | draw =>
      simp only [Outcome.toInt]
      rw [if_neg (by decide), if_neg (by decide), if_pos (by decide)]
    | undecided =>
      simp only [Outcome.toInt]
      rw [if_neg (by decide), if_neg (by decide), if_neg (by decide)]
      simp only [hq] at hold
      cases botToMove with
      | true =>
        simp only [if_true]
        rw [foldMax_ge_iff (fun ij : Nat × Nat => (markGrid a b c d e f g h i).get ij.1 ij.2 = 0)
          (fun ij : Nat × Nat =>
            minimaxFuel n ((markGrid a b c d e f g h i).set ij.1 ij.2 2) (depth + 1) false)]
        right
        simp only [Bool.or_eq_true, Bool.and_eq_true] at hold
        rcases hold with (((((((⟨hb, hh⟩ | ⟨hb, hh⟩) | ⟨hb, hh⟩) | ⟨hb, hh⟩) | ⟨hb, hh⟩) |
          ⟨hb, hh⟩) | ⟨hb, hh⟩) | ⟨hb, hh⟩) | ⟨hb, hh⟩
        · exact ⟨(0, 0), by decide, (isBlank_iff a).2 hb, ih false _ _ _ _ _ _ _ _ _ _ (by omega) hh⟩
        · exact ⟨(0, 1), by decide, (isBlank_iff b).2 hb, ih false _ _ _ _ _ _ _ _ _ _ (by omega) hh⟩
        · exact ⟨(0, 2), by decide, (isBlank_iff c).2 hb, ih false _ _ _ _ _ _ _ _ _ _ (by omega) hh⟩
        · exact ⟨(1, 0), by decide, (isBlank_iff d).2 hb, ih false _ _ _ _ _ _ _ _ _ _ (by omega) hh⟩
        · exact ⟨(1, 1), by decide, (isBlank_iff e).2 hb, ih false _ _ _ _ _ _ _ _ _ _ (by omega) hh⟩
        · exact ⟨(1, 2), by decide, (isBlank_iff f).2 hb, ih false _ _ _ _ _ _ _ _ _ _ (by omega) hh⟩
        · exact ⟨(2, 0), by decide, (isBlank_iff g).2 hb, ih false _ _ _ _ _ _ _ _ _ _ (by omega) hh⟩
        · exact ⟨(2, 1), by decide, (isBlank_iff h).2 hb, ih false _ _ _ _ _ _ _ _ _ _ (by omega) hh⟩
        · exact ⟨(2, 2), by decide, (isBlank_iff i).2 hb, ih false _ _ _ _ _ _ _ _ _ _ (by omega) hh⟩
      | false =>
        simp only [Bool.false_eq_true, if_false]
        rw [foldMin_ge_iff (fun ij : Nat × Nat => (markGrid a b c d e f g h i).get ij.1 ij.2 = 0)
          (fun ij : Nat × Nat =>
            minimaxFuel n ((markGrid a b c d e f g h i).set ij.1 ij.2 1) (depth + 1) true)]
        refine ⟨by norm_num, ?_⟩
        simp only [Bool.and_eq_true, Bool.or_eq_true, Bool.not_eq_true'] at hold
        obtain ⟨⟨⟨⟨⟨⟨⟨⟨h1, h2⟩, h3⟩, h4⟩, h5⟩, h6⟩, h7⟩, h8⟩, h9⟩ := hold
        intro ij hij he
        simp only [cells, List.mem_cons, List.mem_singleton, List.not_mem_nil, or_false] at hij
        rcases hij with hij | hij | hij | hij | hij | hij | hij | hij | hij <;> subst hij
        · have hb := (isBlank_iff a).1 he
          exact ih true _ _ _ _ _ _ _ _ _ _ (by omega) (h1.resolve_left (by simp [hb]))
        · have hb := (isBlank_iff b).1 he
          exact ih true _ _ _ _ _ _ _ _ _ _ (by omega) (h2.resolve_left (by simp [hb]))
        · have hb := (isBlank_iff c).1 he
          exact ih true _ _ _ _ _ _ _ _ _ _ (by omega) (h3.resolve_left (by simp [hb]))
        · have hb := (isBlank_iff d).1 he
          exact ih true _ _ _ _ _ _ _ _ _ _ (by omega) (h4.resolve_left (by simp [hb]))
        · have hb := (isBlank_iff e).1 he
          exact ih true _ _ _ _ _ _ _ _ _ _ (by omega) (h5.resolve_left (by simp [hb]))
        · have hb := (isBlank_iff f).1 he
          exact ih true _ _ _ _ _ _ _ _ _ _ (by omega) (h6.resolve_left (by simp [hb]))
        · have hb := (isBlank_iff g).1 he
          exact ih true _ _ _ _ _ _ _ _ _ _ (by omega) (h7.resolve_left (by simp [hb]))
        · have hb := (isBlank_iff h).1 he
          exact ih true _ _ _ _ _ _ _ _ _ _ (by omega) (h8.resolve_left (by simp [hb]))
        · have hb := (isBlank_iff i).1 he
          exact ih true _ _ _ _ _ _ _ _ _ _ (by omega) (h9.resolve_left (by simp [hb]))

theorem botHolds_start : botHolds 10 false Mark.blank Mark.blank Mark.blank Mark.blank Mark.blank
    Mark.blank Mark.blank Mark.blank Mark.blank = true := by
  decide!

/-- On the empty board with P1 to move the score of `minimax` is not negative:
the bot can avoid a loss. -/
theorem minimax_emptyGrid_nonneg : 0 ≤ minimax emptyGrid 0 false :=
  botHolds_sound 10 false Mark.blank Mark.blank Mark.blank Mark.blank Mark.blank Mark.blank
    Mark.blank Mark.blank Mark.blank 0 (by norm_num) botHolds_start

/-! ## The bot never loses -/

theorem minimax_loss (b : Grid) (d : Int) (x : Bool) (h : checkWin b = 1) :
    minimax b d x = d - 10 := by
  unfold minimax
  rw [minimaxFuel_succ, if_neg (by rw [h]; decide), if_pos ⟨by rw [h]; decide, h⟩]

theorem minimaxFuel_min_child (n : Nat) (b : Grid) (d : Int) (h0 : checkWin b = 0)
    (hn : 0 ≤ minimaxFuel (n + 1) b d false) (ij : Nat × Nat) (hij : ij ∈ cells)
    (he : b.get ij.1 ij.2 = 0) : 0 ≤ minimaxFuel n (b.set ij.1 ij.2 1) (d + 1) true := by
  rw [minimaxFuel_succ, if_neg (by rw [h0]; decide), if_neg (by rw [h0]; decide),
    if_neg (by rw [h0]; decide), if_neg (by decide),
    foldMin_ge_iff (fun ij : Nat × Nat => b.get ij.1 ij.2 = 0)
      (fun ij : Nat × Nat => minimaxFuel n (b.set ij.1 ij.2 1) (d + 1) true)] at hn
  exact hn.2 ij hij he

theorem minimaxFuel_max_child (n : Nat) (b : Grid) (d : Int) (h0 : checkWin b = 0)
    (hn : 0 ≤ minimaxFuel (n + 1) b d true) :
    ∃ ij ∈ cells, b.get ij.1 ij.2 = 0 ∧ 0 ≤ minimaxFuel n (b.set ij.1 ij.2 2) (d + 1) false := by
  rw [minimaxFuel_succ, if_neg (by rw [h0]; decide), if_neg (by rw [h0]; decide),
    if_neg (by rw [h0]; decide), if_pos rfl,
    foldMax_ge_iff (fun ij : Nat × Nat => b.get ij.1 ij.2 = 0)
      (fun ij : Nat × Nat => minimaxFuel n (b.set ij.1 ij.2 2) (d + 1) false)] at hn
  rcases hn with hn | hn
  · exact absurd hn (by decide)
  · exact hn

/-- The reply of `botMove` to a move of P1 keeps the score non-negative. -/
theorem botMove_keeps_nonneg (pick : Nat) (b : Grid) (ij : Nat × Nat) (hij : ij ∈ cells)
    (he : b.get ij.1 ij.2 = 0) (h0 : checkWin b = 0) (hJ : 0 ≤ minimax b 0 false)
    (h1 : checkWin (b.set ij.1 ij.2 1) = 0) :
    botMove pick (b.set ij.1 ij.2 1) ∈ cells ∧
      (b.set ij.1 ij.2 1).get (botMove pick (b.set ij.1 ij.2 1)).1
        (botMove pick (b.set ij.1 ij.2 1)).2 = 0 ∧
      0 ≤ minimax ((b.set ij.1 ij.2 1).set (botMove pick (b.set ij.1 ij.2 1)).1
        (botMove pick (b.set ij.1 ij.2 1)).2 2) 0 false := by
  have hc1 := minimaxFuel_min_child 9 b 0 h0 hJ ij hij he
  obtain ⟨kl, hkl, hke, hc2⟩ := minimaxFuel_max_child 8 (b.set ij.1 ij.2 1) (0 + 1) h1 hc1
  have e0 := empties_le b
  have e1 := empties_set b ij hij he 1 (by decide)
  have e2 := empties_set (b.set ij.1 ij.2 1) kl hkl hke 2 (by decide)
  have hc3 : 0 ≤ minimax ((b.set ij.1 ij.2 1).set kl.1 kl.2 2) 0 false := by
    unfold minimax
    rw [minimaxFuel_stable 10 8 _ 0 false (by omega) (by omega)]
    exact (minimaxFuel_nonneg_shift 8 _ (0 + 1 + 1) 0 false (by norm_num) (by norm_num)).1 hc2
  have hmax := botScan_max (b.set ij.1 ij.2 1) cells (-1000, none) kl hkl hke
  unfold botMove
  rcases botScan_move (b.set ij.1 ij.2 1) cells (-1000, none) with hr | ⟨mn, hmn, hme, hm, hs, _⟩
  · rw [hr] at hmax
    simp only at hmax
    omega
  · rw [hm]
    refine ⟨hmn, hme, ?_⟩
    rw [← hs]
    omega

theorem handleMessage_holding (pick : Nat) (s : TTTState) (msg : MatchData) (hs : holding s) :
    holding (handleMessage pick s msg) := by
  obtain ⟨hmode, hvalid, hwin, hund⟩ := hs
  have hnd : ¬ botDue s := by
    rintro ⟨_, ht, hw⟩
    have := (hund hw).1
    omega
  by_cases hop : msg.OpCode ≠ 1
  · have h1 : handleMessage pick s msg = s := by
      unfold handleMessage
      rw [if_pos hop]
    rw [h1]
    exact ⟨hmode, hvalid, hwin, hund⟩
  cases hd : msg.Data with
  | none =>
    have h1 : handleMessage pick s msg = s := by
      unfold handleMessage
      rw [if_neg hop, hd]
    rw [h1]
    exact ⟨hmode, hvalid, hwin, hund⟩
  | some mv =>
    by_cases hout : outOfRange mv
    · rw [handleMessage_outOfRange pick s msg mv hd hout]
      exact ⟨hmode, hvalid, hwin, hund⟩
    rw [handleMessage_move pick s msg mv (not_not.1 hop) hd hout]
    by_cases hacc : moveAccepted s msg.UserId mv
    swap
    · rw [humanMove_rejected s _ mv hacc, botReply_not_due pick s hnd]
      exact ⟨hmode, hvalid, hwin, hund⟩
    obtain ⟨hB, hW, hT, _, _, hM⟩ := humanMove_fields s msg.UserId mv hacc
    obtain ⟨ht1, h0, hJ⟩ := hund hacc.2.2
    have hcell := inRange_mem_cells mv hout
    have hempty : s.Board.get (mv.Row.toNat, mv.Col.toNat).1 (mv.Row.toNat, mv.Col.toNat).2 = 0 :=
      hacc.2.1
    rw [ht1] at hB hW hT
    have hv1 : (s.Board.set mv.Row.toNat mv.Col.toNat 1).valid :=
      valid_set s.Board hvalid _ hcell 1 (Or.inr (Or.inl rfl))
    have hc1 := minimaxFuel_min_child 9 s.Board 0 h0 hJ _ hcell hempty
    rcases checkWin_range _ hv1 with w1 | w1 | w1 | w1
    · -- undecided after the move of P1: the bot replies
      have hdue : botDue (humanMove s msg.UserId mv) := by
        refine ⟨hM.trans hmode, ?_, hW.trans w1⟩
        rw [hT, if_pos w1]
        rfl
      obtain ⟨hB2, hW2, hT2, _, _, hM2⟩ := botReply_fields pick _ hdue
      rw [hB] at hB2 hW2 hT2
      obtain ⟨hbc, hbe, hbJ⟩ := botMove_keeps_nonneg pick s.Board _ hcell hempty h0 hJ w1
      have hv2 := valid_set _ hv1 _ hbc 2 (Or.inr (Or.inr rfl))
      refine ⟨hM2.trans (hM.trans hmode), ?_, ?_, ?_⟩
      · rw [hB2]
        exact hv2
      · rw [hW2]
        rcases checkWin_range _ hv2 with w2 | w2 | w2 | w2
        · exact Or.inl w2
        · rw [minimax_loss _ 0 false w2] at hbJ
          omega
        · exact Or.inr (Or.inl w2)
        · exact Or.inr (Or.inr w2)
      · intro hw0
        rw [hW2] at hw0
        rw [hT2, if_pos hw0, hB2]
        exact ⟨rfl, hw0, hbJ⟩
    · -- a win of P1 contradicts the non-negative score
      exfalso
      rw [minimaxFuel_succ, if_neg (by rw [w1]; decide), if_pos ⟨by rw [w1]; decide, w1⟩] at hc1
      omega
    · have hnd1 : ¬ botDue (humanMove s msg.UserId mv) := by
        rintro ⟨_, _, hw⟩
        rw [hW, w1] at hw
        omega
      rw [botReply_not_due pick _ hnd1]
      refine ⟨hM.trans hmode, by rw [hB]; exact hv1, Or.inr (Or.inl (hW.trans w1)), ?_⟩
      intro hw
      rw [hW, w1] at hw
      omega
    · have hnd1 : ¬ botDue (humanMove s msg.UserId mv) := by
        rintro ⟨_, _, hw⟩
        rw [hW, w1] at hw
        omega
      rw [botReply_not_due pick _ hnd1]
      refine ⟨hM.trans hmode, by rw [hB]; exact hv1, Or.inr (Or.inr (hW.trans w1)), ?_⟩
      intro hw
      rw [hW, w1] at hw
      omega

theorem MatchLoop_holding (picks : Nat → Nat) (s : TTTState) (msgs : List MatchData)
    (hs : holding s) : holding (MatchLoop picks s msgs) := by
  induction msgs generalizing picks s with
  | nil => exact hs
  | cons msg rest ih =>
    unfold MatchLoop
    exact ih _ _ (handleMessage_holding (picks 0) s msg hs)

theorem Call_holding (s : TTTState) (c : Call) (hs : holding s) : holding (c.apply s) := by
  cases c with
  | join ps =>
    obtain ⟨hB, hT, hW, hM⟩ := MatchJoin_keeps s ps
    show holding (MatchJoin s ps)
    unfold holding
    rw [hB, hT, hW, hM]
    exact hs
  | leave ps =>
    obtain ⟨hB, hT, hM⟩ := MatchLeave_keeps s ps
    show holding (MatchLeave s ps)
    obtain ⟨hmode, hvalid, hwin, _⟩ := hs
    have hw : (MatchLeave s ps).Winner = 2 ∨ (MatchLeave s ps).Winner = 3 := by
      unfold MatchLeave
      split_ifs with h0
      · exact Or.inr rfl
      · rcases hwin with h | h | h
        · exact absurd h h0
        · exact Or.inl h
        · exact Or.inr h
    refine ⟨hM.trans hmode, by rw [hB]; exact hvalid, Or.inr hw, fun h => ?_⟩
    rcases hw with h2 | h2 <;> omega
  | loop picks msgs => exact MatchLoop_holding picks s msgs hs

theorem run_holding (s : TTTState) (calls : List Call) (hs : holding s) :
    holding (run s calls) := by
  induction calls generalizing s with
  | nil => exact hs
  | cons c rest ih =>
    unfold run
    exact ih _ (Call_holding s c hs)

/-- With the repaired detector: from the pvc state with an empty board, Turn 1,
Winner 0, any P1 and P2 = "BOT", after any sequence of callbacks - in particular any sequence of
`MatchLoop` calls with any move messages, those sent by P1 included, and any
random draws - the Winner is never 1: it is 0, 2 or 3. -/
theorem bot_never_loses (p1 : String) (calls : List Call) :
    (run ⟨emptyGrid, 1, p1, "BOT", 0, "pvc"⟩ calls).Winner ≠ 1 ∧
      ((run ⟨emptyGrid, 1, p1, "BOT", 0, "pvc"⟩ calls).Winner = 0 ∨
        (run ⟨emptyGrid, 1, p1, "BOT", 0, "pvc"⟩ calls).Winner = 2 ∨
        (run ⟨emptyGrid, 1, p1, "BOT", 0, "pvc"⟩ calls).Winner = 3) := by
  have h0 : holding ⟨emptyGrid, 1, p1, "BOT", 0, "pvc"⟩ :=
    ⟨rfl, (by decide : emptyGrid.valid), Or.inl rfl,
      fun _ => ⟨rfl, (by decide : checkWin emptyGrid = 0), minimax_emptyGrid_nonneg⟩⟩
  have h := (run_holding _ calls h0).2.2.1
  refine ⟨?_, h⟩
  rcases h with h | h | h <;> omega

/-! ## A move of P1 and the reply of the bot in one call -/

theorem pvc_reply_fields (picks : Nat → Nat) (s : TTTState) (msg : MatchData)
    (mv : Move) (hmode : s.Mode = "pvc") (hturn : s.Turn = 1) (hw : s.Winner = 0)
    (hop : msg.OpCode = 1) (hdata : msg.Data = some mv) (hin : ¬ outOfRange mv)
    (hsender : msg.UserId = s.P1) (hcell : s.Board.get mv.Row.toNat mv.Col.toNat = 0)
    (hundecided : checkWin (s.Board.set mv.Row.toNat mv.Col.toNat 1) = 0) :
    (MatchLoop picks s [msg]).Board =
        (s.Board.set mv.Row.toNat mv.Col.toNat 1).set
          (botMove (picks 0) (s.Board.set mv.Row.toNat mv.Col.toNat 1)).1
          (botMove (picks 0) (s.Board.set mv.Row.toNat mv.Col.toNat 1)).2 2 ∧
      (MatchLoop picks s [msg]).Winner = checkWin (MatchLoop picks s [msg]).Board ∧
      (MatchLoop picks s [msg]).Turn = (if (MatchLoop picks s [msg]).Winner = 0 then 1 else 2) ∧
      (MatchLoop picks s [msg]).P1 = s.P1 ∧ (MatchLoop picks s [msg]).P2 = s.P2 ∧
      (MatchLoop picks s [msg]).Mode = s.Mode := by
  rw [MatchLoop_single, handleMessage_move _ s msg mv hop hdata hin]
  have hacc : moveAccepted s msg.UserId mv :=
    ⟨resolvePid_of_senderOnTurn s msg.UserId (Or.inl ⟨hturn, hsender⟩), hcell, hw⟩
  obtain ⟨hB, hW, hT, hP1, hP2, hM⟩ := humanMove_fields s msg.UserId mv hacc
  rw [hturn] at hB hW hT
  rw [if_pos hundecided] at hT
  have hdue : botDue (humanMove s msg.UserId mv) :=
    ⟨hM.trans hmode, hT, hW.trans hundecided⟩
  obtain ⟨hB2, hW2, hT2, hQ1, hQ2, hM2⟩ := botReply_fields (picks 0) _ hdue
  rw [hB] at hB2 hW2 hT2
  rw [hT] at hT2
  refine ⟨hB2, ?_, ?_, hQ1.trans hP1, hQ2.trans hP2, hM2.trans hM⟩
  · rw [hW2, hB2]
  · rw [hT2, hW2]
    rfl

/-- C11: on a pvc state with Turn 1 and Winner 0, an in-range move message of
P1 at an empty cell `(r,c)` such that `checkWin` of `B1` (the board with 1 at
`(r,c)`) is 0 makes the same `MatchLoop` call return the board `B1` with 2
placed at `botMove(B1)`, Winner `checkWin` of that board, Turn 1 if that Winner
is 0 and Turn 2 otherwise; P1, P2 and Mode are unchanged. -/
theorem human_move_then_bot_reply (picks : Nat → Nat) (s : TTTState) (msg : MatchData)
    (mv : Move) (hmode : s.Mode = "pvc") (hturn : s.Turn = 1) (hw : s.Winner = 0)
    (hop : msg.OpCode = 1) (hdata : msg.Data = some mv) (hin : ¬ outOfRange mv)
    (hsender : msg.UserId = s.P1) (hcell : s.Board.get mv.Row.toNat mv.Col.toNat = 0)
    (hundecided : checkWin (s.Board.set mv.Row.toNat mv.Col.toNat 1) = 0) :
    (MatchLoop picks s [msg]).Board =
        (s.Board.set mv.Row.toNat mv.Col.toNat 1).set
          (botMove (picks 0) (s.Board.set mv.Row.toNat mv.Col.toNat 1)).1
          (botMove (picks 0) (s.Board.set mv.Row.toNat mv.Col.toNat 1)).2 2 ∧
      (MatchLoop picks s [msg]).Winner = checkWin (MatchLoop picks s [msg]).Board ∧
      (MatchLoop picks s [msg]).Turn = (if (MatchLoop picks s [msg]).Winner = 0 then 1 else 2) ∧
      (MatchLoop picks s [msg]).P1 = s.P1 ∧ (MatchLoop picks s [msg]).P2 = s.P2 ∧
      (MatchLoop picks s [msg]).Mode = s.Mode :=
  pvc_reply_fields picks s msg mv hmode hturn hw hop hdata hin hsender hcell hundecided

theorem human_move_then_bot_reply_witness :
    (MatchLoop (fun _ => 0) ⟨⟨1, 2, 1, 1, 2, 2, 0, 0, 0⟩, 1, "a", "BOT", 0, "pvc"⟩
        [⟨1, "a", some ⟨2, 1⟩⟩]).Board =
        ((⟨1, 2, 1, 1, 2, 2, 0, 0, 0⟩ : Grid).set 2 1 1).set
          (botMove 0 ((⟨1, 2, 1, 1, 2, 2, 0, 0, 0⟩ : Grid).set 2 1 1)).1
          (botMove 0 ((⟨1, 2, 1, 1, 2, 2, 0, 0, 0⟩ : Grid).set 2 1 1)).2 2 ∧
      (MatchLoop (fun _ => 0) ⟨⟨1, 2, 1, 1, 2, 2, 0, 0, 0⟩, 1, "a", "BOT", 0, "pvc"⟩
        [⟨1, "a", some ⟨2, 1⟩⟩]).Winner =
        checkWin (MatchLoop (fun _ => 0) ⟨⟨1, 2, 1, 1, 2, 2, 0, 0, 0⟩, 1, "a", "BOT", 0, "pvc"⟩
          [⟨1, "a", some ⟨2, 1⟩⟩]).Board ∧
      (MatchLoop (fun _ => 0) ⟨⟨1, 2, 1, 1, 2, 2, 0, 0, 0⟩, 1, "a", "BOT", 0, "pvc"⟩
        [⟨1, "a", some ⟨2, 1⟩⟩]).Turn =
        (if (MatchLoop (fun _ => 0) ⟨⟨1, 2, 1, 1, 2, 2, 0, 0, 0⟩, 1, "a", "BOT", 0, "pvc"⟩
          [⟨1, "a", some ⟨2, 1⟩⟩]).Winner = 0 then 1 else 2) ∧
      (MatchLoop (fun _ => 0) ⟨⟨1, 2, 1, 1, 2, 2, 0, 0, 0⟩, 1, "a", "BOT", 0, "pvc"⟩
        [⟨1, "a", some ⟨2, 1⟩⟩]).P1 = "a" ∧
      (MatchLoop (fun _ => 0) ⟨⟨1, 2, 1, 1, 2, 2, 0, 0, 0⟩, 1, "a", "BOT", 0, "pvc"⟩
        [⟨1, "a", some ⟨2, 1⟩⟩]).P2 = "BOT" ∧
      (MatchLoop (fun _ => 0) ⟨⟨1, 2, 1, 1, 2, 2, 0, 0, 0⟩, 1, "a", "BOT", 0, "pvc"⟩
        [⟨1, "a", some ⟨2, 1⟩⟩]).Mode = "pvc" :=
  human_move_then_bot_reply (fun _ => 0) ⟨⟨1, 2, 1, 1, 2, 2, 0, 0, 0⟩, 1, "a", "BOT", 0, "pvc"⟩
    ⟨1, "a", some ⟨2, 1⟩⟩ ⟨2, 1⟩ rfl rfl rfl rfl rfl (by decide) rfl (by decide) (by decide)

/-! ## Admission -/

theorem humanCount_cases (s : TTTState) :
    (humanCount s ≥ 1 ↔ humanId s.P1 ∨ humanId s.P2) ∧
      (humanCount s ≥ 2 ↔ humanId s.P1 ∧ humanId s.P2) := by
  have e : humanCount s =
      (if humanId s.P1 then 1 else 0) + (if humanId s.P2 then 1 else 0) := rfl
  rw [e]
  by_cases h1 : humanId s.P1 <;> by_cases h2 : humanId s.P2 <;> simp [h1, h2]

theorem MatchJoinAttempt_decision (s : TTTState) (p : String) :
    ((MatchJoinAttempt s p).2.1 = false ↔
        (s.Mode = "pvc" ∧ (humanId s.P1 ∨ humanId s.P2)) ∨ (humanId s.P1 ∧ humanId s.P2)) ∧
      (MatchJoinAttempt s p).1 = s := by
  obtain ⟨c1, c2⟩ := humanCount_cases s
  unfold MatchJoinAttempt
  by_cases h1 : s.Mode = "pvc" ∧ humanCount s ≥ 1
  · rw [if_pos h1]
    exact ⟨⟨fun _ => Or.inl ⟨h1.1, c1.1 h1.2⟩, fun _ => rfl⟩, rfl⟩
  · rw [if_neg h1]
    by_cases h2 : humanCount s ≥ 2
    · rw [if_pos h2]
      exact ⟨⟨fun _ => Or.inr (c2.1 h2), fun _ => rfl⟩, rfl⟩
    · rw [if_neg h2]
      refine ⟨⟨fun h => Bool.noConfusion h, ?_⟩, rfl⟩
      rintro (⟨hm, hh⟩ | hh)
      · exact absurd ⟨hm, c1.2 hh⟩ h1
      · exact absurd (c2.2 hh) h2

/-- C12: for every state and every candidate, `MatchJoinAttempt` rejects if and
only if Mode is "pvc" and P1 or P2 is a human id (non-empty and not "BOT"), or
both P1 and P2 are human ids, and accepts otherwise; in pvc mode with a human
at P1 it always rejects; the returned state is the input state. -/
theorem joinAttempt_rejects_iff (s : TTTState) (p : String) :
    ((MatchJoinAttempt s p).2.1 = false ↔
        (s.Mode = "pvc" ∧ (humanId s.P1 ∨ humanId s.P2)) ∨ (humanId s.P1 ∧ humanId s.P2)) ∧
      ((MatchJoinAttempt s p).2.1 = true ↔
        ¬ ((s.Mode = "pvc" ∧ (humanId s.P1 ∨ humanId s.P2)) ∨ (humanId s.P1 ∧ humanId s.P2))) ∧
      (s.Mode = "pvc" → humanId s.P1 → (MatchJoinAttempt s p).2.1 = false) ∧
      (MatchJoinAttempt s p).1 = s := by
  obtain ⟨hiff, hst⟩ := MatchJoinAttempt_decision s p
  refine ⟨hiff, ?_, fun hm hh => hiff.2 (Or.inl ⟨hm, Or.inl hh⟩), hst⟩
  rw [← hiff]
  cases (MatchJoinAttempt s p).2.1 <;> simp

/-- C16, as stated, fails: `MatchJoinAttempt` does not read the candidate. On
the state of `MatchInit` the candidate "BOT" is accepted, and `MatchJoin`
stores "BOT" in P1. -/
theorem bot_id_accepted :
    (MatchJoinAttempt (MatchInit (fun _ => none)) "BOT").2.1 = true ∧
      (MatchJoin (MatchInit (fun _ => none)) ["BOT"]).P1 = "BOT" := by
  decide

/-! ## Leaving -/

/-- C14: for every state and every list of departing participants (non-empty
or not), `MatchLeave` returns the input state with Winner 3 if Winner was 0 and
Winner unchanged otherwise, all other fields unchanged; applying it a second
time to its own result returns that result. -/
theorem MatchLeave_result (s : TTTState) (ps qs : List String) :
    MatchLeave s ps = { s with Winner := if s.Winner = 0 then 3 else s.Winner } ∧
      MatchLeave (MatchLeave s ps) qs = MatchLeave s ps := by
  have h1 : MatchLeave s ps = { s with Winner := if s.Winner = 0 then 3 else s.Winner } := by
    unfold MatchLeave
    split_ifs <;> rfl
  refine ⟨h1, ?_⟩
  have h2 : (MatchLeave s ps).Winner ≠ 0 := by
    rw [h1]
    simp only
    split_ifs with h
    · decide
    · exact h
  show (if (MatchLeave s ps).Winner = 0 then _ else MatchLeave s ps) = MatchLeave s ps
  rw [if_neg h2]

/-! ## The session configuration -/

/-- The state returned by `MatchInit`: an all-empty board, Turn 1, Winner 0,
P1 = P2 = "", Mode "pvp" when the key "mode" is absent or its value is not a
string, and otherwise the string under "mode", whatever it is. -/
theorem MatchInit_result (params : String → Option ParamValue) :
    (MatchInit params).Board = emptyGrid ∧ (MatchInit params).Turn = 1 ∧
      (MatchInit params).Winner = 0 ∧ (MatchInit params).P1 = "" ∧
      (MatchInit params).P2 = "" ∧
      (params "mode" = some (ParamValue.str "pvc") → (MatchInit params).Mode = "pvc") ∧
      (params "mode" = none → (MatchInit params).Mode = "pvp") ∧
      (params "mode" = some ParamValue.other → (MatchInit params).Mode = "pvp") ∧
      (∀ str, params "mode" = some (ParamValue.str str) → (MatchInit params).Mode = str) := by
  refine ⟨rfl, rfl, rfl, rfl, rfl, ?_, ?_, ?_, ?_⟩
  · intro h
    simp [MatchInit, h]
  · intro h
    simp [MatchInit, h]
  · intro h
    simp [MatchInit, h]
  · intro str h
    simp [MatchInit, h]

/-- C17 fails on the code: a configuration whose "mode" is the string "easy"
gives Mode "easy", which is neither "pvp" nor "pvc". -/
theorem MatchInit_keeps_unknown_mode :
    (MatchInit (fun k => if k = "mode" then some (ParamValue.str "easy") else none)).Mode =
        "easy" ∧
      (MatchInit (fun k => if k = "mode" then some (ParamValue.str "easy") else none)).Mode ≠
        "pvp" ∧
      (MatchInit (fun k => if k = "mode" then some (ParamValue.str "easy") else none)).Mode ≠
        "pvc" := by
  decide

/-! ## Seating -/

theorem joinOne_seated (s : TTTState) (p : String) :
    (s.P1 ≠ "" → (joinOne s p).P1 = s.P1) ∧ (s.P2 ≠ "" → (joinOne s p).P2 = s.P2) ∧
      (s.Mode ≠ "pvp" → (joinOne s p).P2 = s.P2) := by
  unfold joinOne
  refine ⟨fun h => ?_, fun h => ?_, fun h => ?_⟩
  · rw [if_neg h]
    split_ifs <;> rfl
  · split_ifs <;> rfl
  · split_ifs <;> rfl

theorem joinFold_seated (ps : List String) (s : TTTState) :
    (s.P1 ≠ "" → (ps.foldl joinOne s).P1 = s.P1) ∧
      (s.P2 ≠ "" → (ps.foldl joinOne s).P2 = s.P2) ∧
      (s.Mode ≠ "pvp" → (ps.foldl joinOne s).P2 = s.P2) := by
  induction ps generalizing s with
  | nil => exact ⟨fun _ => rfl, fun _ => rfl, fun _ => rfl⟩
  | cons p rest ih =>
    rw [List.foldl_cons]
    obtain ⟨j1, j2, j3⟩ := joinOne_seated s p
    obtain ⟨i1, i2, i3⟩ := ih (joinOne s p)
    have hm := (joinOne_keeps s p).2.2.2
    refine ⟨fun h => ?_, fun h => ?_, fun h => ?_⟩
    · rw [i1 (by rw [j1 h]; exact h), j1 h]
    · rw [i2 (by rw [j2 h]; exact h), j2 h]
    · rw [i3 (by rw [hm]; exact h), j3 h]

theorem joinFold_first (p : String) (rest : List String) (s : TTTState) (hp : p ≠ "")
    (h1 : s.P1 = "") :
    ((p :: rest).foldl joinOne s).P1 = p ∧
      ((p :: rest).foldl joinOne s).P2 = (rest.foldl joinOne { s with P1 := p }).P2 := by
  have hj : joinOne s p = { s with P1 := p } := by
    unfold joinOne
    rw [if_pos h1]
  rw [List.foldl_cons, hj]
  exact ⟨(joinFold_seated rest { s with P1 := p }).1 hp, rfl⟩

theorem joinFold_second (q : String) (rest : List String) (s : TTTState) (hq : q ≠ "")
    (h1 : s.P1 ≠ "") (h2 : s.P2 = "") (hm : s.Mode = "pvp") :
    ((q :: rest).foldl joinOne s).P2 = q := by
  have hj : joinOne s q = { s with P2 := q } := by
    unfold joinOne
    rw [if_neg h1, if_pos h2, if_pos hm]
  rw [List.foldl_cons, hj]
  exact (joinFold_seated rest { s with P2 := q }).2.1 hq

theorem MatchJoin_P1 (s : TTTState) (ps : List String) :
    (MatchJoin s ps).P1 = (ps.foldl joinOne s).P1 := by
  unfold MatchJoin
  simp only
  split_ifs <;> rfl

theorem MatchJoin_P2_pvp (s : TTTState) (ps : List String) (hm : s.Mode = "pvp") :
    (MatchJoin s ps).P2 = (ps.foldl joinOne s).P2 := by
  have hmode : (ps.foldl joinOne s).Mode = "pvp" := by
    have hk : ∀ (l : List String) (t : TTTState), (l.foldl joinOne t).Mode = t.Mode := by
      intro l
      induction l with
      | nil => intro t; rfl
      | cons p rest ih =>
        intro t
        rw [List.foldl_cons, ih, (joinOne_keeps t p).2.2.2]
    rw [hk, hm]
  unfold MatchJoin
  simp only
  rw [if_neg]
  rintro ⟨h, _⟩
  rw [hmode] at h
  exact absurd h (by decide)

theorem MatchJoin_P2_pvc (s : TTTState) (ps : List String) (hm : s.Mode = "pvc") :
    (MatchJoin s ps).P2 = if s.P2 = "" then "BOT" else s.P2 := by
  have hne : s.Mode ≠ "pvp" := by
    rw [hm]
    decide
  have hp2 := (joinFold_seated ps s).2.2 hne
  have hmode : (ps.foldl joinOne s).Mode = "pvc" := by
    have hk : ∀ (l : List String) (t : TTTState), (l.foldl joinOne t).Mode = t.Mode := by
      intro l
      induction l with
      | nil => intro t; rfl
      | cons p rest ih =>
        intro t
        rw [List.foldl_cons, ih, (joinOne_keeps t p).2.2.2]
    rw [hk, hm]
  unfold MatchJoin
  simp only
  by_cases h2 : s.P2 = ""
  · rw [if_pos ⟨hmode, hp2.trans h2⟩, if_pos h2]
  · rw [if_neg (fun h => h2 (hp2.symm.trans h.2)), if_neg h2]
    exact hp2

/-- C13: for every state and every list of joining participants with non-empty
ids, `MatchJoin` (i) leaves a seat that was non-empty before the call
unchanged, (ii) gives P1, if it was empty, to the first participant of the
list, (iii) in pvp mode gives P2, if it was empty, to the first participant of
the list not seated at P1 by this call (the second of the list if P1 was empty,
the first otherwise), (iv) in pvc mode returns P2 = "BOT" if P2 was empty and
P2 unchanged otherwise, so no participant is seated at P2, and (v) leaves
Board, Turn, Winner and Mode unchanged. -/
theorem MatchJoin_seats (s : TTTState) (ps : List String) (hids : ∀ p ∈ ps, p ≠ "") :
    ((s.P1 ≠ "" → (MatchJoin s ps).P1 = s.P1) ∧ (s.P2 ≠ "" → (MatchJoin s ps).P2 = s.P2)) ∧
      (s.P1 = "" → ∀ p rest, ps = p :: rest → (MatchJoin s ps).P1 = p) ∧
      (s.Mode = "pvp" → s.P2 = "" → ∀ q rest,
        (if s.P1 = "" then ps.tail else ps) = q :: rest → (MatchJoin s ps).P2 = q) ∧
      (s.Mode = "pvc" → (MatchJoin s ps).P2 = (if s.P2 = "" then "BOT" else s.P2) ∧
        (s.P2 = "" → (MatchJoin s ps).P1 ≠ "" → (MatchJoin s ps).P2 = "BOT")) ∧
      ((MatchJoin s ps).Board = s.Board ∧ (MatchJoin s ps).Turn = s.Turn ∧
        (MatchJoin s ps).Winner = s.Winner ∧ (MatchJoin s ps).Mode = s.Mode) := by
  refine ⟨⟨fun h => ?_, fun h => ?_⟩, ?_, ?_, ?_, MatchJoin_keeps s ps⟩
  · rw [MatchJoin_P1]
    exact (joinFold_seated ps s).1 h
  · by_cases hm : s.Mode = "pvc"
    · rw [MatchJoin_P2_pvc s ps hm, if_neg h]
    · have hk := MatchJoin_keeps s ps
      have hf := (joinFold_seated ps s).2.1 h
      unfold MatchJoin
      simp only
      split_ifs with hc
      · exact absurd (hf.symm.trans hc.2) h
      · exact hf
  · intro h1 p rest hps
    rw [MatchJoin_P1, hps]
    exact (joinFold_first p rest s (hids p (by rw [hps]; exact List.mem_cons_self p rest)) h1).1
  · intro hm h2 q rest hq
    rw [MatchJoin_P2_pvp s ps hm]
    by_cases h1 : s.P1 = ""
    · rw [if_pos h1] at hq
      cases ps with
      | nil => simp at hq
      | cons p tail =>
        simp only [List.tail_cons] at hq
        have hp : p ≠ "" := hids p (List.mem_cons_self p tail)
        have hqne : q ≠ "" := hids q (by rw [hq]; simp)
        rw [(joinFold_first p tail s hp h1).2, hq]
        exact joinFold_second q rest { s with P1 := p } hqne hp h2 hm
    · rw [if_neg h1] at hq
      rw [hq]
      exact joinFold_second q rest s (hids q (by rw [hq]; exact List.mem_cons_self q rest)) h1 h2 hm
  · intro hm
    have h := MatchJoin_P2_pvc s ps hm
    refine ⟨h, fun h2 _ => ?_⟩
    rw [h, if_pos h2]

theorem MatchJoin_seats_witness :
    (∀ p ∈ (["a", "b", "c"] : List String), p ≠ "") ∧
      (MatchJoin ⟨emptyGrid, 1, "", "", 0, "pvp"⟩ ["a", "b", "c"]).P1 = "a" ∧
      (MatchJoin ⟨emptyGrid, 1, "", "", 0, "pvp"⟩ ["a", "b", "c"]).P2 = "b" :=
  ⟨by decide,
    (MatchJoin_seats ⟨emptyGrid, 1, "", "", 0, "pvp"⟩ ["a", "b", "c"] (by decide)).2.1 rfl
      "a" ["b", "c"] rfl,
    (MatchJoin_seats ⟨emptyGrid, 1, "", "", 0, "pvp"⟩ ["a", "b", "c"] (by decide)).2.2.1 rfl rfl
      "b" ["c"] rfl⟩

/-- C16, amended: `MatchJoinAttempt` decides without reading the candidate: a
candidate whose user id is "BOT" gets the decision every other candidate gets,
and is rejected if and only if Mode is "pvc" and P1 or P2 is a human id, or
both P1 and P2 are human ids; and `MatchJoin` stores the id "BOT" of a first
joining participant in an empty P1 like any other id. -/
theorem joinAttempt_ignores_candidate (s : TTTState) (p : String) :
    MatchJoinAttempt s "BOT" = MatchJoinAttempt s p ∧
      ((MatchJoinAttempt s "BOT").2.1 = false ↔
        (s.Mode = "pvc" ∧ (humanId s.P1 ∨ humanId s.P2)) ∨ (humanId s.P1 ∧ humanId s.P2)) ∧
      (s.P1 = "" → ∀ rest : List String, (MatchJoin s ("BOT" :: rest)).P1 = "BOT") := by
  refine ⟨rfl, (MatchJoinAttempt_decision s "BOT").1, fun h1 rest => ?_⟩
  rw [MatchJoin_P1]
  exact (joinFold_first "BOT" rest s (by decide) h1).1

/-! ## Reachable states: the bot is never kept waiting, the outcome fits the board -/

theorem settled_not_due (s : TTTState) (hs : settled s) : ¬ botDue s := by
  rintro ⟨hm, ht, hw⟩
  have := hs.1 hm hw
  omega

theorem botDue_after_humanMove (s : TTTState) (userId : String) (mv : Move) (hs : settled s)
    (hdue : botDue (humanMove s userId mv)) : moveAccepted s userId mv := by
  by_contra hacc
  rw [humanMove_rejected s userId mv hacc] at hdue
  exact settled_not_due s hs hdue

theorem handleMessage_settled (pick : Nat) (s : TTTState) (msg : MatchData) (hs : settled s) :
    settled (handleMessage pick s msg) := by
  by_cases hop : msg.OpCode ≠ 1
  · have h1 : handleMessage pick s msg = s := by
      unfold handleMessage
      rw [if_pos hop]
    rw [h1]
    exact hs
  cases hd : msg.Data with
  | none =>
    have h1 : handleMessage pick s msg = s := by
      unfold handleMessage
      rw [if_neg hop, hd]
    rw [h1]
    exact hs
  | some mv =>
    by_cases hout : outOfRange mv
    · rw [handleMessage_outOfRange pick s msg mv hd hout]
      exact hs
    rw [handleMessage_move pick s msg mv (not_not.1 hop) hd hout]
    by_cases hacc : moveAccepted s msg.UserId mv
    swap
    · rw [humanMove_rejected s _ mv hacc, botReply_not_due pick s (settled_not_due s hs)]
      exact hs
    obtain ⟨hB, hW, hT, _, _, hM⟩ := humanMove_fields s msg.UserId mv hacc
    by_cases hdue : botDue (humanMove s msg.UserId mv)
    · obtain ⟨hB2, hW2, hT2, _, _, _⟩ := botReply_fields pick _ hdue
      refine ⟨fun _ hw0 => ?_, Or.inr ?_⟩
      · rw [hW2] at hw0
        rw [hT2, if_pos hw0]
      · rw [hW2, hB2]
    · rw [botReply_not_due pick _ hdue]
      refine ⟨fun hm hw0 => ?_, Or.inr ?_⟩
      · exfalso
        apply hdue
        refine ⟨hm, ?_, hw0⟩
        rw [hW] at hw0
        rw [hT, if_pos hw0, hs.1 (hM.symm.trans hm) hacc.2.2]
        rfl
      · rw [hW, hB]

theorem MatchLoop_settled (picks : Nat → Nat) (s : TTTState) (msgs : List MatchData)
    (hs : settled s) : settled (MatchLoop picks s msgs) := by
  induction msgs generalizing picks s with
  | nil => exact hs
  | cons msg rest ih =>
    unfold MatchLoop
    exact ih _ _ (handleMessage_settled (picks 0) s msg hs)

theorem Call_settled (s : TTTState) (c : Call) (hs : settled s) : settled (c.apply s) := by
  cases c with
  | join ps =>
    obtain ⟨hB, hT, hW, hM⟩ := MatchJoin_keeps s ps
    show settled (MatchJoin s ps)
    unfold settled
    rw [hB, hT, hW, hM]
    exact hs
  | leave ps =>
    obtain ⟨hB, hT, hM⟩ := MatchLeave_keeps s ps
    show settled (MatchLeave s ps)
    by_cases h0 : s.Winner = 0
    · have hw : (MatchLeave s ps).Winner = 3 := by
        unfold MatchLeave
        rw [if_pos h0]
      refine ⟨fun _ hw0 => ?_, Or.inl hw⟩
      rw [hw] at hw0
      exact absurd hw0 (by decide)
    · have hw : MatchLeave s ps = s := by
        unfold MatchLeave
        rw [if_neg h0]
      rw [hw]
      exact hs
  | loop picks msgs => exact MatchLoop_settled picks s msgs hs

theorem run_settled (s : TTTState) (calls : List Call) (hs : settled s) :
    settled (run s calls) := by
  induction calls generalizing s with
  | nil => exact hs
  | cons c rest ih =>
    unfold run
    exact ih _ (Call_settled s c hs)

theorem MatchInit_settled (params : String → Option ParamValue) : settled (MatchInit params) :=
  ⟨fun _ _ => rfl, Or.inr (by decide : checkWin emptyGrid = 0)⟩

/-- C19: in every state reached from the state of `MatchInit` by any sequence
of `MatchJoin`, `MatchLeave` and `MatchLoop` calls (any participants, messages
and random draws), Mode "pvc" and Winner 0 imply Turn 1; and whenever the
bot-reply block of `MatchLoop` runs while a message is processed in such a
state, the human move of that same message was accepted. -/
theorem pvc_never_waits_on_bot (params : String → Option ParamValue) (calls : List Call) :
    ((run (MatchInit params) calls).Mode = "pvc" → (run (MatchInit params) calls).Winner = 0 →
        (run (MatchInit params) calls).Turn = 1) ∧
      ∀ (userId : String) (mv : Move),
        botDue (humanMove (run (MatchInit params) calls) userId mv) →
          moveAccepted (run (MatchInit params) calls) userId mv := by
  have hs := run_settled (MatchInit params) calls (MatchInit_settled params)
  exact ⟨hs.1, fun userId mv hdue => botDue_after_humanMove _ userId mv hs hdue⟩

theorem checkWin_zero_no_line (b : Grid) (h : checkWin b = 0) : ∀ l ∈ lines, ¬ lineFull b l := by
  intro l hl hfull
  obtain ⟨k, hk⟩ := List.getElem?_of_mem hl
  have hP : ∃ k, ∃ l, lines[k]? = some l ∧ lineFull b l := ⟨k, l, hk, hfull⟩
  classical
  obtain ⟨l0, hl0, hf0⟩ := Nat.find_spec hP
  have hs := lineScan_first b lines (Nat.find hP) l0 hl0 hf0
    (fun k2 l2 hk2 hl2 hf2 => Nat.find_min hP hk2 ⟨l2, hl2, hf2⟩)
  have hc : checkWin b = b.get l0.1.1 l0.1.2 := by simp [checkWin, hs]
  rw [h] at hc
  exact hf0.1 hc.symm

/-- With the repaired detector: in every state reached from the state of
`MatchInit` by any sequence of callbacks, Winner 0 implies `checkWin(Board) = 0`, no completed line and an
empty cell; Winner 1 or 2 implies `checkWin(Board) = Winner`; and whenever the
bot-reply block runs after the in-range move of a message, the board handed to
`botMove` has an empty cell and the cell `botMove` returns is in range and
empty, so the write `Board[row][col] = 2` fills an empty cell. -/
theorem outcome_agrees_with_board (params : String → Option ParamValue) (calls : List Call) :
    ((run (MatchInit params) calls).Winner = 0 →
        checkWin (run (MatchInit params) calls).Board = 0 ∧
        (∀ l ∈ lines, ¬ lineFull (run (MatchInit params) calls).Board l) ∧
        ∃ ij ∈ cells, (run (MatchInit params) calls).Board.get ij.1 ij.2 = 0) ∧
      (((run (MatchInit params) calls).Winner = 1 ∨ (run (MatchInit params) calls).Winner = 2) →
        checkWin (run (MatchInit params) calls).Board = (run (MatchInit params) calls).Winner) ∧
      ∀ (pick : Nat) (userId : String) (mv : Move), ¬ outOfRange mv →
        botDue (humanMove (run (MatchInit params) calls) userId mv) →
          (∃ ij ∈ cells,
            (humanMove (run (MatchInit params) calls) userId mv).Board.get ij.1 ij.2 = 0) ∧
          (botMove pick (humanMove (run (MatchInit params) calls) userId mv).Board).1 ≤ 2 ∧
          (botMove pick (humanMove (run (MatchInit params) calls) userId mv).Board).2 ≤ 2 ∧
          (humanMove (run (MatchInit params) calls) userId mv).Board.get
            (botMove pick (humanMove (run (MatchInit params) calls) userId mv).Board).1
            (botMove pick (humanMove (run (MatchInit params) calls) userId mv).Board).2 = 0 := by
  have hs := run_settled (MatchInit params) calls (MatchInit_settled params)
  have hc := (run_step (MatchInit params) calls (MatchInit_consistent params).1).1
  refine ⟨fun h0 => ?_, fun h12 => ?_, fun pick userId mv hin hdue => ?_⟩
  · have hz := hc.2.2 h0
    exact ⟨hz, checkWin_zero_no_line _ hz, checkWin_zero_empty _ hc.1 hz⟩
  · rcases hs.2 with h3 | h
    · rcases h12 with h | h <;> omega
    · exact h
  · have hc1 := (humanMove_step _ userId mv hin hc).1
    have hex := checkWin_zero_empty _ hc1.1 (hc1.2.2 hdue.2.2)
    have hb := botMove_empty pick _ hex
    have hle := mem_cells_le _ hb.1
    exact ⟨hex, hle.1, hle.2, hb.2⟩

/-! ## The choice of `botMove` -/

theorem minimaxFuel_ge (n : Nat) (b : Grid) (hv : b.valid) (d : Int) (x : Bool)
    (hd : d + n ≤ 10) : d - 10 ≤ minimaxFuel n b d x := by
  induction n generalizing b d x with
  | zero =>
    simp only [minimaxFuel]
    push_cast at hd
    omega
  | succ n ih =>
    push_cast at hd
    rw [minimaxFuel_succ]
    have hchild : ∀ ij ∈ cells, ∀ (v : Int), (v = 0 ∨ v = 1 ∨ v = 2) → ∀ (y : Bool),
        d - 9 ≤ minimaxFuel n (b.set ij.1 ij.2 v) (d + 1) y := by
      intro ij hij v hval y
      have := ih (b.set ij.1 ij.2 v) (valid_set b hv ij hij v hval) (d + 1) y (by omega)
      omega
    split_ifs with h1 h2 h3 h4
    · omega
    · omega
    · omega
    · have h0 : checkWin b = 0 := by
        rcases checkWin_range b hv with h | h | h | h
        · exact h
        · exact absurd ⟨by omega, h⟩ h2
        · exact absurd ⟨by omega, h⟩ h1
        · exact absurd ⟨by omega, h⟩ h3
      obtain ⟨ij, hij, he⟩ := checkWin_zero_empty b hv h0
      rw [foldMax_ge_iff (fun ij : Nat × Nat => b.get ij.1 ij.2 = 0)
        (fun ij : Nat × Nat => minimaxFuel n (b.set ij.1 ij.2 2) (d + 1) false)]
      refine Or.inr ⟨ij, hij, he, ?_⟩
      have := hchild ij hij 2 (Or.inr (Or.inr rfl)) false
      omega
    · rw [foldMin_ge_iff (fun ij : Nat × Nat => b.get ij.1 ij.2 = 0)
        (fun ij : Nat × Nat => minimaxFuel n (b.set ij.1 ij.2 1) (d + 1) true)]
      refine ⟨by omega, fun ij hij _ => ?_⟩
      have := hchild ij hij 1 (Or.inr (Or.inl rfl)) true
      omega

/-- The score of every empty cell of a board with cells in {0,1,2} is above
the sentinel -1000 of `botMove`. -/
theorem score_above_sentinel (b : Grid) (hv : b.valid) (ij : Nat × Nat) (hij : ij ∈ cells) :
    -1000 < minimax (b.set ij.1 ij.2 2) 0 false := by
  have := minimaxFuel_ge 10 (b.set ij.1 ij.2 2) (valid_set b hv ij hij 2 (Or.inr (Or.inr rfl)))
    0 false (by norm_num)
  unfold minimax
  omega

/-- The scan of `botMove` either keeps its initial pair, and then no empty cell
of the list scores above the initial score, or ends with the first cell of the
list among those of maximal score. -/
theorem botScan_first (b : Grid) (l : List (Nat × Nat)) (init : Int × Option (Nat × Nat)) :
    (botScan b l init = init ∧
        ∀ x ∈ l, b.get x.1 x.2 = 0 → minimax (b.set x.1 x.2 2) 0 false ≤ init.1) ∨
      ∃ pre c post, l = pre ++ c :: post ∧ b.get c.1 c.2 = 0 ∧
        botScan b l init = (minimax (b.set c.1 c.2 2) 0 false, some c) ∧
        init.1 < minimax (b.set c.1 c.2 2) 0 false ∧
        (∀ x ∈ pre, b.get x.1 x.2 = 0 →
          minimax (b.set x.1 x.2 2) 0 false < minimax (b.set c.1 c.2 2) 0 false) ∧
        (∀ x ∈ post, b.get x.1 x.2 = 0 →
          minimax (b.set x.1 x.2 2) 0 false ≤ minimax (b.set c.1 c.2 2) 0 false) := by
  induction l generalizing init with
  | nil => exact Or.inl ⟨rfl, fun x hx => absurd hx (List.not_mem_nil x)⟩
  | cons a rest ih =>
    rw [botScan_cons]
    by_cases hup : b.get a.1 a.2 = 0 ∧ minimax (b.set a.1 a.2 2) 0 false > init.1
    · rw [if_pos hup.1, if_pos hup.2]
      rcases ih (minimax (b.set a.1 a.2 2) 0 false, some a) with
        ⟨hr, hall⟩ | ⟨pre, c, post, hl, he, hr, hlt, hpre, hpost⟩
      · exact Or.inr ⟨[], a, rest, rfl, hup.1, hr, hup.2,
          fun x hx => absurd hx (List.not_mem_nil x), hall⟩
      · refine Or.inr ⟨a :: pre, c, post, by rw [hl]; rfl, he, hr, ?_, ?_, hpost⟩
        · have := hup.2
          simp only at hlt
          omega
        · intro x hx hxe
          rcases List.mem_cons.1 hx with h | h
          · subst h
            exact hlt
          · exact hpre x h hxe
    · have hstep : (if b.get a.1 a.2 = 0 then
          (if minimax (b.set a.1 a.2 2) 0 false > init.1 then
            (minimax (b.set a.1 a.2 2) 0 false, some a) else init) else init) = init := by
        split_ifs with h1 h2
        · exact absurd ⟨h1, h2⟩ hup
        · rfl
        · rfl
      rw [hstep]
      have ha : b.get a.1 a.2 = 0 → minimax (b.set a.1 a.2 2) 0 false ≤ init.1 := by
        intro h1
        by_contra h2
        exact hup ⟨h1, by omega⟩
      rcases ih init with ⟨hr, hall⟩ | ⟨pre, c, post, hl, he, hr, hlt, hpre, hpost⟩
      · refine Or.inl ⟨hr, fun x hx hxe => ?_⟩
        rcases List.mem_cons.1 hx with h | h
        · subst h
          exact ha hxe
        · exact hall x h hxe
      · refine Or.inr ⟨a :: pre, c, post, by rw [hl]; rfl, he, hr, hlt, ?_, hpost⟩
        intro x hx hxe
        rcases List.mem_cons.1 hx with h | h
        · subst h
          have := ha hxe
          omega
        · exact hpre x h hxe

theorem botMove_first_max (pick : Nat) (b : Grid) (hv : b.valid)
    (hex : ∃ ij ∈ cells, b.get ij.1 ij.2 = 0) :
    ∃ pre post, cells = pre ++ botMove pick b :: post ∧
      b.get (botMove pick b).1 (botMove pick b).2 = 0 ∧
      (botScan b cells (-1000, none)).2 = some (botMove pick b) ∧
      -1000 < minimax (b.set (botMove pick b).1 (botMove pick b).2 2) 0 false ∧
      (∀ x ∈ pre, b.get x.1 x.2 = 0 → minimax (b.set x.1 x.2 2) 0 false <
        minimax (b.set (botMove pick b).1 (botMove pick b).2 2) 0 false) ∧
      (∀ x ∈ cells, b.get x.1 x.2 = 0 → minimax (b.set x.1 x.2 2) 0 false ≤
        minimax (b.set (botMove pick b).1 (botMove pick b).2 2) 0 false) := by
  rcases botScan_first b cells (-1000, none) with
    ⟨_, hall⟩ | ⟨pre, c, post, hl, he, hr, hlt, hpre, hpost⟩
  · exfalso
    obtain ⟨ij, hij, hije⟩ := hex
    have h1 := hall ij hij hije
    have h2 := score_above_sentinel b hv ij hij
    simp only at h1
    omega
  · have hm : botMove pick b = c := by
      unfold botMove
      rw [hr]
    rw [hm]
    refine ⟨pre, post, hl, he, by rw [hr], hlt, hpre, fun x hx hxe => ?_⟩
    rw [hl] at hx
    rcases List.mem_append.1 hx with h | h
    · exact le_of_lt (hpre x h hxe)
    · rcases List.mem_cons.1 h with h | h
      · rw [h]
      · exact hpost x h hxe

/-- With the repaired detector: on every board with cells in {0,1,2} that has an
empty cell, `botMove` returns an empty cell whose score
`minimax(board with 2 placed there, 0, false)` is maximal among the empty
cells and strictly above the score of every empty cell before it in row-major
order; that score is above the sentinel -1000, the scan ends with this cell as
`bestMove`, so the random fallback is not reached, and the result is the same
for every random draw. -/
theorem botMove_first_best (pick : Nat) (b : Grid) (hv : b.valid)
    (hex : ∃ ij ∈ cells, b.get ij.1 ij.2 = 0) :
    (∃ pre post, cells = pre ++ botMove pick b :: post ∧
      b.get (botMove pick b).1 (botMove pick b).2 = 0 ∧
      (botScan b cells (-1000, none)).2 = some (botMove pick b) ∧
      -1000 < minimax (b.set (botMove pick b).1 (botMove pick b).2 2) 0 false ∧
      (∀ x ∈ pre, b.get x.1 x.2 = 0 → minimax (b.set x.1 x.2 2) 0 false <
        minimax (b.set (botMove pick b).1 (botMove pick b).2 2) 0 false) ∧
      (∀ x ∈ cells, b.get x.1 x.2 = 0 → minimax (b.set x.1 x.2 2) 0 false ≤
        minimax (b.set (botMove pick b).1 (botMove pick b).2 2) 0 false)) ∧
      ∀ pick2 : Nat, botMove pick2 b = botMove pick b := by
  refine ⟨botMove_first_max pick b hv hex, fun pick2 => ?_⟩
  obtain ⟨_, _, _, _, h1, _⟩ := botMove_first_max pick b hv hex
  obtain ⟨_, _, _, _, h2, _⟩ := botMove_first_max pick2 b hv hex
  rw [h1] at h2
  exact (Option.some.inj h2).symm

theorem botMove_first_best_witness :
    (⟨1, 2, 1, 1, 2, 2, 0, 1, 0⟩ : Grid).valid ∧
      (∃ ij ∈ cells, (⟨1, 2, 1, 1, 2, 2, 0, 1, 0⟩ : Grid).get ij.1 ij.2 = 0) ∧
      ∀ pick2 : Nat, botMove pick2 ⟨1, 2, 1, 1, 2, 2, 0, 1, 0⟩ =
        botMove 5 ⟨1, 2, 1, 1, 2, 2, 0, 1, 0⟩ :=
  ⟨by decide, ⟨(2, 0), by decide, rfl⟩,
    (botMove_first_best 5 ⟨1, 2, 1, 1, 2, 2, 0, 1, 0⟩ (by decide) ⟨(2, 0), by decide, rfl⟩).2⟩

/-! ## The reply to a corner opening -/

theorem humanForces_succ (n : Nat) (botToMove : Bool) (a b c d e f g h i : Mark) :
    humanForces (n + 1) botToMove a b c d e f g h i =
      match quickCheck a b c d e f g h i with
      | Outcome.humanWins => true
      | Outcome.botWins => false
      | Outcome.draw => false
      | Outcome.undecided =>
        match botToMove with
        | true =>
          (!a.isBlank || humanForces n false Mark.bot b c d e f g h i) &&
          (!b.isBlank || humanForces n false a Mark.bot c d e f g h i) &&
          (!c.isBlank || humanForces n false a b Mark.bot d e f g h i) &&
          (!d.isBlank || humanForces n false a b c Mark.bot e f g h i) &&
          (!e.isBlank || humanForces n false a b c d Mark.bot f g h i) &&
          (!f.isBlank || humanForces n false a b c d e Mark.bot g h i) &&
          (!g.isBlank || humanForces n false a b c d e f Mark.bot h i) &&
          (!h.isBlank || humanForces n false a b c d e f g Mark.bot i) &&
          (!i.isBlank || humanForces n false a b c d e f g h Mark.bot)
        | false =>
          (a.isBlank && humanForces n true Mark.human b c d e f g h i) ||
          (b.isBlank && humanForces n true a Mark.human c d e f g h i) ||
          (c.isBlank && humanForces n true a b Mark.human d e f g h i) ||
          (d.isBlank && humanForces n true a b c Mark.human e f g h i) ||
          (e.isBlank && humanForces n true a b c d Mark.human f g h i) ||
          (f.isBlank && humanForces n true a b c d e Mark.human g h i) ||
          (g.isBlank && humanForces n true a b c d e f Mark.human h i) ||
          (h.isBlank && humanForces n true a b c d e f g Mark.human i) ||
          (i.isBlank && humanForces n true a b c d e f g h Mark.human) := rfl

/-- When the quick search says P1 can force a win, the score of `minimax` for
the position is negative. -/
theorem humanForces_sound (n : Nat) (botToMove : Bool) (a b c d e f g h i : Mark) (depth : Int)
    (hd : depth + n ≤ 10) (forced : humanForces n botToMove a b c d e f g h i = true) :
    minimaxFuel n (markGrid a b c d e f g h i) depth botToMove ≤ -1 := by
  induction n generalizing botToMove a b c d e f g h i depth with
  | zero => simp [humanForces] at forced
  | succ n ih =>
    push_cast at hd
    rw [humanForces_succ] at forced
    rw [minimaxFuel_succ, checkWin_markGrid]
    cases hq : quickCheck a b c d e f g h i with
    | botWins => simp [hq] at forced
    | draw => simp [hq] at forced
    | humanWins =>
      simp only [Outcome.toInt]
      rw [if_neg (by decide), if_pos (by decide)]
      omega
    | undecided =>
      simp only [Outcome.toInt]
      rw [if_neg (by decide), if_neg (by decide), if_neg (by decide)]
      simp only [hq] at forced
      cases botToMove with
      | false =>
        simp only [Bool.false_eq_true, if_false]
        rw [foldMin_le_iff (fun ij : Nat × Nat => (markGrid a b c d e f g h i).get ij.1 ij.2 = 0)
          (fun ij : Nat × Nat =>
            minimaxFuel n ((markGrid a b c d e f g h i).set ij.1 ij.2 1) (depth + 1) true)]
        right
        simp only [Bool.or_eq_true, Bool.and_eq_true] at forced
        rcases forced with (((((((⟨hb, hh⟩ | ⟨hb, hh⟩) | ⟨hb, hh⟩) | ⟨hb, hh⟩) | ⟨hb, hh⟩) |
          ⟨hb, hh⟩) | ⟨hb, hh⟩) | ⟨hb, hh⟩) | ⟨hb, hh⟩
        · exact ⟨(0, 0), by decide, (isBlank_iff a).2 hb, ih true _ _ _ _ _ _ _ _ _ _ (by omega) hh⟩
        · exact ⟨(0, 1), by decide, (isBlank_iff b).2 hb, ih true _ _ _ _ _ _ _ _ _ _ (by omega) hh⟩
        · exact ⟨(0, 2), by decide, (isBlank_iff c).2 hb, ih true _ _ _ _ _ _ _ _ _ _ (by omega) hh⟩
        · exact ⟨(1, 0), by decide, (isBlank_iff d).2 hb, ih true _ _ _ _ _ _ _ _ _ _ (by omega) hh⟩
        · exact ⟨(1, 1), by decide, (isBlank_iff e).2 hb, ih true _ _ _ _ _ _ _ _ _ _ (by omega) hh⟩
        · exact ⟨(1, 2), by decide, (isBlank_iff f).2 hb, ih true _ _ _ _ _ _ _ _ _ _ (by omega) hh⟩
        · exact ⟨(2, 0), by decide, (isBlank_iff g).2 hb, ih true _ _ _ _ _ _ _ _ _ _ (by omega) hh⟩
        · exact ⟨(2, 1), by decide, (isBlank_iff h).2 hb, ih true _ _ _ _ _ _ _ _ _ _ (by omega) hh⟩
        · exact ⟨(2, 2), by decide, (isBlank_iff i).2 hb, ih true _ _ _ _ _ _ _ _ _ _ (by omega) hh⟩
      | true =>
        simp only [if_true]
        rw [foldMax_le_iff (fun ij : Nat × Nat => (markGrid a b c d e f g h i).get ij.1 ij.2 = 0)
          (fun ij : Nat × Nat =>
            minimaxFuel n ((markGrid a b c d e f g h i).set ij.1 ij.2 2) (depth + 1) false)]
        refine ⟨by norm_num, ?_⟩
        simp only [Bool.and_eq_true, Bool.or_eq_true, Bool.not_eq_true'] at forced
        obtain ⟨⟨⟨⟨⟨⟨⟨⟨h1, h2⟩, h3⟩, h4⟩, h5⟩, h6⟩, h7⟩, h8⟩, h9⟩ := forced
        intro ij hij he
        simp only [cells, List.mem_cons, List.mem_singleton, List.not_mem_nil, or_false] at hij
        rcases hij with hij | hij | hij | hij | hij | hij | hij | hij | hij <;> subst hij
        · have hb := (isBlank_iff a).1 he
          exact ih false _ _ _ _ _ _ _ _ _ _ (by omega) (h1.resolve_left (by simp [hb]))
        · have hb := (isBlank_iff b).1 he
          exact ih false _ _ _ _ _ _ _ _ _ _ (by omega) (h2.resolve_left (by simp [hb]))
        · have hb := (isBlank_iff c).1 he
          exact ih false _ _ _ _ _ _ _ _ _ _ (by omega) (h3.resolve_left (by simp [hb]))
        · have hb := (isBlank_iff d).1 he
          exact ih false _ _ _ _ _ _ _ _ _ _ (by omega) (h4.resolve_left (by simp [hb]))
        · have hb := (isBlank_iff e).1 he
          exact ih false _ _ _ _ _ _ _ _ _ _ (by omega) (h5.resolve_left (by simp [hb]))
        · have hb := (isBlank_iff f).1 he
          exact ih false _ _ _ _ _ _ _ _ _ _ (by omega) (h6.resolve_left (by simp [hb]))
        · have hb := (isBlank_iff g).1 he
          exact ih false _ _ _ _ _ _ _ _ _ _ (by omega) (h7.resolve_left (by simp [hb]))
        · have hb := (isBlank_iff h).1 he
          exact ih false _ _ _ _ _ _ _ _ _ _ (by omega) (h8.resolve_left (by simp [hb]))
        · have hb := (isBlank_iff i).1 he
          exact ih false _ _ _ _ _ _ _ _ _ _ (by omega) (h9.resolve_left (by simp [hb]))

/-- When one empty cell has a non-negative score and every other empty cell a
negative one, `botMove` returns that cell. -/
theorem botMove_only_nonneg (pick : Nat) (b : Grid) (hv : b.valid) (m : Nat × Nat)
    (hm : m ∈ cells) (hme : b.get m.1 m.2 = 0) (hms : 0 ≤ minimax (b.set m.1 m.2 2) 0 false)
    (hrest : ∀ x ∈ cells, x ≠ m → b.get x.1 x.2 = 0 →
      minimax (b.set x.1 x.2 2) 0 false ≤ -1) : botMove pick b = m := by
  obtain ⟨pre, post, hl, he, _, _, _, hmax⟩ := botMove_first_max pick b hv ⟨m, hm, hme⟩
  by_contra hne
  have hmem : botMove pick b ∈ cells := by
    rw [hl]
    simp
  have h1 := hrest _ hmem hne he
  have h2 := hmax m hm hme
  omega

theorem corner_00_reply (pick : Nat) : botMove pick (emptyGrid.set 0 0 1) = (1, 1) := by
  apply botMove_only_nonneg pick _ (by decide) (1, 1) (by decide) (by decide)
  · exact botHolds_sound 10 false Mark.human Mark.blank Mark.blank Mark.blank Mark.bot Mark.blank Mark.blank Mark.blank Mark.blank 0
      (by norm_num) (by decide!)
  · intro x hx hne he
    simp only [cells, List.mem_cons, List.mem_singleton, List.not_mem_nil, or_false] at hx
    rcases hx with hx | hx | hx | hx | hx | hx | hx | hx | hx <;> subst hx
    · exact absurd he (by decide)
    · exact humanForces_sound 10 false Mark.human Mark.bot Mark.blank Mark.blank Mark.blank Mark.blank Mark.blank Mark.blank Mark.blank 0
        (by norm_num) (by decide!)
    · exact humanForces_sound 10 false Mark.human Mark.blank Mark.bot Mark.blank Mark.blank Mark.blank Mark.blank Mark.blank Mark.blank 0
        (by norm_num) (by decide!)
    · exact humanForces_sound 10 false Mark.human Mark.blank Mark.blank Mark.bot Mark.blank Mark.blank Mark.blank Mark.blank Mark.blank 0
        (by norm_num) (by decide!)
    · exact absurd rfl hne
    · exact humanForces_sound 10 false Mark.human Mark.blank Mark.blank Mark.blank Mark.blank Mark.bot Mark.blank Mark.blank Mark.blank 0
        (by norm_num) (by decide!)
    · exact humanForces_sound 10 false Mark.human Mark.blank Mark.blank Mark.blank Mark.blank Mark.blank Mark.bot Mark.blank Mark.blank 0
        (by norm_num) (by decide!)
    · exact humanForces_sound 10 false Mark.human Mark.blank Mark.blank Mark.blank Mark.blank Mark.blank Mark.blank Mark.bot Mark.blank 0
        (by norm_num) (by decide!)
    · exact humanForces_sound 10 false Mark.human Mark.blank Mark.blank Mark.blank Mark.blank Mark.blank Mark.blank Mark.blank Mark.bot 0
        (by norm_num) (by decide!)

theorem corner_02_reply (pick : Nat) : botMove pick (emptyGrid.set 0 2 1) = (1, 1) := by
  apply botMove_only_nonneg pick _ (by decide) (1, 1) (by decide) (by decide)
  · exact botHolds_sound 10 false Mark.blank Mark.blank Mark.human Mark.blank Mark.bot Mark.blank Mark.blank Mark.blank Mark.blank 0
      (by norm_num) (by decide!)
  · intro x hx hne he
    simp only [cells, List.mem_cons, List.mem_singleton, List.not_mem_nil, or_false] at hx
    rcases hx with hx | hx | hx | hx | hx | hx | hx | hx | hx <;> subst hx
    · exact humanForces_sound 10 false Mark.bot Mark.blank Mark.human Mark.blank Mark.blank Mark.blank Mark.blank Mark.blank Mark.blank 0
        (by norm_num) (by decide!)
    · exact humanForces_sound 10 false Mark.blank Mark.bot Mark.human Mark.blank Mark.blank Mark.blank Mark.blank Mark.blank Mark.blank 0
        (by norm_num) (by decide!)
    · exact absurd he (by decide)
    · exact humanForces_sound 10 false Mark.blank Mark.blank Mark.human Mark.bot Mark.blank Mark.blank Mark.blank Mark.blank Mark.blank 0
        (by norm_num) (by decide!)
    · exact absurd rfl hne
    · exact humanForces_sound 10 false Mark.blank Mark.blank Mark.human Mark.blank Mark.blank Mark.bot Mark.blank Mark.blank Mark.blank 0
        (by norm_num) (by decide!)
    · exact humanForces_sound 10 false Mark.blank Mark.blank Mark.human Mark.blank Mark.blank Mark.blank Mark.bot Mark.blank Mark.blank 0
        (by norm_num) (by decide!)
    · exact humanForces_sound 10 false Mark.blank Mark.blank Mark.human Mark.blank Mark.blank Mark.blank Mark.blank Mark.bot Mark.blank 0
        (by norm_num) (by decide!)
    · exact humanForces_sound 10 false Mark.blank Mark.blank Mark.human Mark.blank Mark.blank Mark.blank Mark.blank Mark.blank Mark.bot 0
        (by norm_num) (by decide!)

theorem corner_20_reply (pick : Nat) : botMove pick (emptyGrid.set 2 0 1) = (1, 1) := by
  apply botMove_only_nonneg pick _ (by decide) (1, 1) (by decide) (by decide)
  · exact botHolds_sound 10 false Mark.blank Mark.blank Mark.blank Mark.blank Mark.bot Mark.blank Mark.human Mark.blank Mark.blank 0
      (by norm_num) (by decide!)
  · intro x hx hne he
    simp only [cells, List.mem_cons, List.mem_singleton, List.not_mem_nil, or_false] at hx
    rcases hx with hx | hx | hx | hx | hx | hx | hx | hx | hx <;> subst hx
    · exact humanForces_sound 10 false Mark.bot Mark.blank Mark.blank Mark.blank Mark.blank Mark.blank Mark.human Mark.blank Mark.blank 0
        (by norm_num) (by decide!)
    · exact humanForces_sound 10 false Mark.blank Mark.bot Mark.blank Mark.blank Mark.blank Mark.blank Mark.human Mark.blank Mark.blank 0
        (by norm_num) (by decide!)
    · exact humanForces_sound 10 false Mark.blank Mark.blank Mark.bot Mark.blank Mark.blank Mark.blank Mark.human Mark.blank Mark.blank 0
        (by norm_num) (by decide!)
    · exact humanForces_sound 10 false Mark.blank Mark.blank Mark.blank Mark.bot Mark.blank Mark.blank Mark.human Mark.blank Mark.blank 0
        (by norm_num) (by decide!)
    · exact absurd rfl hne
    · exact humanForces_sound 10 false Mark.blank Mark.blank Mark.blank Mark.blank Mark.blank Mark.bot Mark.human Mark.blank Mark.blank 0
        (by norm_num) (by decide!)
    · exact absurd he (by decide)
    · exact humanForces_sound 10 false Mark.blank Mark.blank Mark.blank Mark.blank Mark.blank Mark.blank Mark.human Mark.bot Mark.blank 0
        (by norm_num) (by decide!)
    · exact humanForces_sound 10 false Mark.blank Mark.blank Mark.blank Mark.blank Mark.blank Mark.blank Mark.human Mark.blank Mark.bot 0
        (by norm_num) (by decide!)

theorem corner_22_reply (pick : Nat) : botMove pick (emptyGrid.set 2 2 1) = (1, 1) := by
  apply botMove_only_nonneg pick _ (by decide) (1, 1) (by decide) (by decide)
  · exact botHolds_sound 10 false Mark.blank Mark.blank Mark.blank Mark.blank Mark.bot Mark.blank Mark.blank Mark.blank Mark.human 0
      (by norm_num) (by decide!)
  · intro x hx hne he
    simp only [cells, List.mem_cons, List.mem_singleton, List.not_mem_nil, or_false] at hx
    rcases hx with hx | hx | hx | hx | hx | hx | hx | hx | hx <;> subst hx
    · exact humanForces_sound 10 false Mark.bot Mark.blank Mark.blank Mark.blank Mark.blank Mark.blank Mark.blank Mark.blank Mark.human 0
        (by norm_num) (by decide!)
    · exact humanForces_sound 10 false Mark.blank Mark.bot Mark.blank Mark.blank Mark.blank Mark.blank Mark.blank Mark.blank Mark.human 0
        (by norm_num) (by decide!)
    · exact humanForces_sound 10 false Mark.blank Mark.blank Mark.bot Mark.blank Mark.blank Mark.blank Mark.blank Mark.blank Mark.human 0
        (by norm_num) (by decide!)
    · exact humanForces_sound 10 false Mark.blank Mark.blank Mark.blank Mark.bot Mark.blank Mark.blank Mark.blank Mark.blank Mark.human 0
        (by norm_num) (by decide!)
    · exact absurd rfl hne
    · exact humanForces_sound 10 false Mark.blank Mark.blank Mark.blank Mark.blank Mark.blank Mark.bot Mark.blank Mark.blank Mark.human 0
        (by norm_num) (by decide!)
    · exact humanForces_sound 10 false Mark.blank Mark.blank Mark.blank Mark.blank Mark.blank Mark.blank Mark.bot Mark.blank Mark.human 0
        (by norm_num) (by decide!)
    · exact humanForces_sound 10 false Mark.blank Mark.blank Mark.blank Mark.blank Mark.blank Mark.blank Mark.blank Mark.bot Mark.human 0
        (by norm_num) (by decide!)
    · exact absurd he (by decide)

/-- The state after an opening of P1 that the bot answers at the center. -/
theorem opening_answered_at_center (picks : Nat → Nat) (p1 : String) (mv : Move)
    (hin : ¬ outOfRange mv)
    (hreply : botMove (picks 0) (emptyGrid.set mv.Row.toNat mv.Col.toNat 1) = (1, 1))
    (h1 : checkWin (emptyGrid.set mv.Row.toNat mv.Col.toNat 1) = 0)
    (h2 : checkWin ((emptyGrid.set mv.Row.toNat mv.Col.toNat 1).set 1 1 2) = 0) :
    (MatchLoop picks ⟨emptyGrid, 1, p1, "BOT", 0, "pvc"⟩ [⟨1, p1, some mv⟩]).Board =
        (emptyGrid.set mv.Row.toNat mv.Col.toNat 1).set 1 1 2 ∧
      (MatchLoop picks ⟨emptyGrid, 1, p1, "BOT", 0, "pvc"⟩ [⟨1, p1, some mv⟩]).Turn = 1 ∧
      (MatchLoop picks ⟨emptyGrid, 1, p1, "BOT", 0, "pvc"⟩ [⟨1, p1, some mv⟩]).Winner = 0 := by
  have hcell : (⟨emptyGrid, 1, p1, "BOT", 0, "pvc"⟩ : TTTState).Board.get mv.Row.toNat
      mv.Col.toNat = 0 := by
    have hmem := inRange_mem_cells mv hin
    simp only [cells, List.mem_cons, List.mem_singleton, List.not_mem_nil, or_false,
      Prod.mk.injEq] at hmem
    rcases hmem with h | h | h | h | h | h | h | h | h <;> rw [h.1, h.2] <;> rfl
  obtain ⟨hB, hW, hT, _, _, _⟩ := pvc_reply_fields picks ⟨emptyGrid, 1, p1, "BOT", 0, "pvc"⟩
    ⟨1, p1, some mv⟩ mv rfl rfl rfl rfl rfl hin rfl hcell h1
  rw [hreply] at hB
  have hW0 : (MatchLoop picks ⟨emptyGrid, 1, p1, "BOT", 0, "pvc"⟩ [⟨1, p1, some mv⟩]).Winner =
      0 := by
    rw [hW, hB]
    exact h2
  refine ⟨hB, ?_, hW0⟩
  rw [hT, if_pos hW0]

/-- With the repaired detector: in pvc mode, from the state with an empty
board, Turn 1, Winner 0, any P1 and P2 = "BOT", for each corner opening (0,0), (0,2), (2,0), (2,2) of P1 the
cell `botMove` chooses on the board after the opening is the center (1,1),
whatever the random draw, and the state returned by the same `MatchLoop` call
has the opening and the center reply on the board, Turn 1 and Winner 0; after
the opening (0,0) the board is [[1,0,0],[0,2,0],[0,0,0]]. -/
theorem corner_opening_answered_at_center (picks : Nat → Nat) (p1 : String) :
    (botMove (picks 0) ⟨1, 0, 0, 0, 0, 0, 0, 0, 0⟩ = (1, 1) ∧
      (MatchLoop picks ⟨emptyGrid, 1, p1, "BOT", 0, "pvc"⟩ [⟨1, p1, some ⟨0, 0⟩⟩]).Board =
        ⟨1, 0, 0, 0, 2, 0, 0, 0, 0⟩ ∧
      (MatchLoop picks ⟨emptyGrid, 1, p1, "BOT", 0, "pvc"⟩ [⟨1, p1, some ⟨0, 0⟩⟩]).Turn = 1 ∧
      (MatchLoop picks ⟨emptyGrid, 1, p1, "BOT", 0, "pvc"⟩ [⟨1, p1, some ⟨0, 0⟩⟩]).Winner = 0) ∧
    (botMove (picks 0) ⟨0, 0, 1, 0, 0, 0, 0, 0, 0⟩ = (1, 1) ∧
      (MatchLoop picks ⟨emptyGrid, 1, p1, "BOT", 0, "pvc"⟩ [⟨1, p1, some ⟨0, 2⟩⟩]).Board =
        ⟨0, 0, 1, 0, 2, 0, 0, 0, 0⟩ ∧
      (MatchLoop picks ⟨emptyGrid, 1, p1, "BOT", 0, "pvc"⟩ [⟨1, p1, some ⟨0, 2⟩⟩]).Turn = 1 ∧
      (MatchLoop picks ⟨emptyGrid, 1, p1, "BOT", 0, "pvc"⟩ [⟨1, p1, some ⟨0, 2⟩⟩]).Winner = 0) ∧
    (botMove (picks 0) ⟨0, 0, 0, 0, 0, 0, 1, 0, 0⟩ = (1, 1) ∧
      (MatchLoop picks ⟨emptyGrid, 1, p1, "BOT", 0, "pvc"⟩ [⟨1, p1, some ⟨2, 0⟩⟩]).Board =
        ⟨0, 0, 0, 0, 2, 0, 1, 0, 0⟩ ∧
      (MatchLoop picks ⟨emptyGrid, 1, p1, "BOT", 0, "pvc"⟩ [⟨1, p1, some ⟨2, 0⟩⟩]).Turn = 1 ∧
      (MatchLoop picks ⟨emptyGrid, 1, p1, "BOT", 0, "pvc"⟩ [⟨1, p1, some ⟨2, 0⟩⟩]).Winner = 0) ∧
    (botMove (picks 0) ⟨0, 0, 0, 0, 0, 0, 0, 0, 1⟩ = (1, 1) ∧
      (MatchLoop picks ⟨emptyGrid, 1, p1, "BOT", 0, "pvc"⟩ [⟨1, p1, some ⟨2, 2⟩⟩]).Board =
        ⟨0, 0, 0, 0, 2, 0, 0, 0, 1⟩ ∧
      (MatchLoop picks ⟨emptyGrid, 1, p1, "BOT", 0, "pvc"⟩ [⟨1, p1, some ⟨2, 2⟩⟩]).Turn = 1 ∧
      (MatchLoop picks ⟨emptyGrid, 1, p1, "BOT", 0, "pvc"⟩ [⟨1, p1, some ⟨2, 2⟩⟩]).Winner = 0) :=
  ⟨⟨corner_00_reply (picks 0),
      opening_answered_at_center picks p1 ⟨0, 0⟩ (by decide) (corner_00_reply (picks 0))
        (by decide) (by decide)⟩,
    ⟨corner_02_reply (picks 0),
      opening_answered_at_center picks p1 ⟨0, 2⟩ (by decide) (corner_02_reply (picks 0))
        (by decide) (by decide)⟩,
    ⟨corner_20_reply (picks 0),
      opening_answered_at_center picks p1 ⟨2, 0⟩ (by decide) (corner_20_reply (picks 0))
        (by decide) (by decide)⟩,
    ⟨corner_22_reply (picks 0),
      opening_answered_at_center picks p1 ⟨2, 2⟩ (by decide) (corner_22_reply (picks 0))
        (by decide) (by decide)⟩⟩

/-! ## Illegal moves in a session

The two facts about Turn used here hold whatever the detector returns: none of
the proofs of this section looks into `checkWin`. -/

theorem handleMessage_turnSound (pick : Nat) (s : TTTState) (msg : MatchData)
    (hs : turnSound s) : turnSound (handleMessage pick s msg) := by
  have hnd : ¬ botDue s := by
    rintro ⟨hm, ht, hw⟩
    have := hs.2 hm hw
    omega
  by_cases hop : msg.OpCode ≠ 1
  · have h1 : handleMessage pick s msg = s := by
      unfold handleMessage
      rw [if_pos hop]
    rw [h1]
    exact hs
  cases hd : msg.Data with
  | none =>
    have h1 : handleMessage pick s msg = s := by
      unfold handleMessage
      rw [if_neg hop, hd]
    rw [h1]
    exact hs
  | some mv =>
    by_cases hout : outOfRange mv
    · rw [handleMessage_outOfRange pick s msg mv hd hout]
      exact hs
    rw [handleMessage_move pick s msg mv (not_not.1 hop) hd hout]
    by_cases hacc : moveAccepted s msg.UserId mv
    swap
    · rw [humanMove_rejected s _ mv hacc, botReply_not_due pick s hnd]
      exact hs
    obtain ⟨_, hW, hT, _, _, hM⟩ := humanMove_fields s msg.UserId mv hacc
    have hr1 : (humanMove s msg.UserId mv).Turn = 1 ∨ (humanMove s msg.UserId mv).Turn = 2 := by
      rw [hT]
      split_ifs
      · exact otherSeat_range s.Turn
      · exact hs.1
    by_cases hdue : botDue (humanMove s msg.UserId mv)
    · obtain ⟨_, hW2, hT2, _, _, _⟩ := botReply_fields pick _ hdue
      refine ⟨?_, fun _ hw0 => ?_⟩
      · rw [hT2]
        split_ifs
        · exact Or.inl rfl
        · exact hr1
      · rw [hW2] at hw0
        rw [hT2, if_pos hw0]
    · rw [botReply_not_due pick _ hdue]
      refine ⟨hr1, fun hm hw0 => ?_⟩
      exfalso
      apply hdue
      refine ⟨hm, ?_, hw0⟩
      rw [hW] at hw0
      rw [hT, if_pos hw0, hs.2 (hM.symm.trans hm) hacc.2.2]
      rfl

theorem MatchLoop_turnSound (picks : Nat → Nat) (s : TTTState) (msgs : List MatchData)
    (hs : turnSound s) : turnSound (MatchLoop picks s msgs) := by
  induction msgs generalizing picks s with
  | nil => exact hs
  | cons msg rest ih =>
    unfold MatchLoop
    exact ih _ _ (handleMessage_turnSound (picks 0) s msg hs)

theorem Call_turnSound (s : TTTState) (c : Call) (hs : turnSound s) : turnSound (c.apply s) := by
  cases c with
  | join ps =>
    obtain ⟨_, hT, hW, hM⟩ := MatchJoin_keeps s ps
    show turnSound (MatchJoin s ps)
    unfold turnSound
    rw [hT, hW, hM]
    exact hs
  | leave ps =>
    obtain ⟨_, hT, hM⟩ := MatchLeave_keeps s ps
    show turnSound (MatchLeave s ps)
    refine ⟨by rw [hT]; exact hs.1, fun hm hw0 => ?_⟩
    rw [hT]
    have hw : s.Winner = 0 := by
      unfold MatchLeave at hw0
      split_ifs at hw0 with h0
      · simp at hw0
      · exact hw0
    exact hs.2 (hM.symm.trans hm) hw
  | loop picks msgs => exact MatchLoop_turnSound picks s msgs hs

theorem run_turnSound (s : TTTState) (calls : List Call) (hs : turnSound s) :
    turnSound (run s calls) := by
  induction calls generalizing s with
  | nil => exact hs
  | cons c rest ih =>
    unfold run
    exact ih _ (Call_turnSound s c hs)

theorem MatchInit_turnSound (params : String → Option ParamValue) :
    turnSound (MatchInit params) :=
  ⟨Or.inl rfl, fun _ _ => rfl⟩

/-- C3: in every session state, that is every state the callbacks produce from
the state of `MatchInit` (any configuration, any sequence of `MatchJoin`,
`MatchLeave` and `MatchLoop` calls), every single op-code-1 move message that
is illegal - row or column outside [0,2], or the sender is not the occupant of
the seat whose turn it is (in pvc: is not P1), or the target cell is non-empty,
or Winner is not 0 - makes `MatchLoop` return a state equal to the input state
in every field. -/
theorem illegal_move_leaves_state (params : String → Option ParamValue) (calls : List Call)
    (picks : Nat → Nat) (msg : MatchData) (mv : Move) (hop : msg.OpCode = 1)
    (hdata : msg.Data = some mv)
    (hill : illegalMove (run (MatchInit params) calls) msg.UserId mv) :
    MatchLoop picks (run (MatchInit params) calls) [msg] = run (MatchInit params) calls := by
  have hs := run_turnSound (MatchInit params) calls (MatchInit_turnSound params)
  refine illegal_move_ignored picks _ msg mv hop hdata hs.1 hill (Or.inr ?_)
  rintro ⟨hm, ht, hw⟩
  have := hs.2 hm hw
  omega

theorem illegal_move_leaves_state_witness :
    illegalMove (run (MatchInit (fun _ => none)) [Call.join ["a", "b"]]) "b" ⟨1, 1⟩ ∧
      MatchLoop (fun _ => 0) (run (MatchInit (fun _ => none)) [Call.join ["a", "b"]])
          [⟨1, "b", some ⟨1, 1⟩⟩] =
        run (MatchInit (fun _ => none)) [Call.join ["a", "b"]] :=
  ⟨by decide,
    illegal_move_leaves_state (fun _ => none) [Call.join ["a", "b"]] (fun _ => 0)
      ⟨1, "b", some ⟨1, 1⟩⟩ ⟨1, 1⟩ rfl rfl (by decide)⟩

end TicTacToe
